import Mathlib

/-!
# TRS-80 Model 100 keyboard driver: matrix scan and modifier/CODE state machine

A shallow embedding of `internal/keyboard/matrix.go`, `internal/keyboard/scanner.go`
and `internal/uinput/device.go`.

Conventions of the embedding.

* Go `int` key codes and line levels are `Int`; row and column indices are `Nat`
  (the scan loop only ever produces `range` indices).
* The virtual keyboard `uinput.Keyboard` is an external interface.  It is modelled by the
  list of calls issued to it together with a script of outcomes, so that every call may
  fail; a Go `error` result is a `Bool` that is `true` when the error is not `nil`.
* `slog` output and `time.Sleep` have no influence on the values computed and are left
  out. The mutex has none either; it appears only in the step lists of the two handlers
  (`handleKeyPressSteps`, `handleKeyReleaseSteps`), which place their device calls between
  the lock on entry and the deferred unlock.
* `New` is modelled with the outcome of each acquisition as an input and the list of
  acquisitions and `Close` calls as an output.
-/

namespace M100

/-! ## Key codes of the imported package `github.com/bendahl/uinput`

The package is an external dependency; its key codes are the Linux input event codes. -/

namespace uinput

def KeyEsc : Int := 1
def Key1 : Int := 2
def Key2 : Int := 3
def Key3 : Int := 4
def Key4 : Int := 5
def Key5 : Int := 6
def Key6 : Int := 7
def Key7 : Int := 8
def Key8 : Int := 9
def Key9 : Int := 10
def Key0 : Int := 11
def KeyMinus : Int := 12
def KeyEqual : Int := 13
def KeyBackspace : Int := 14
def KeyTab : Int := 15
def KeyQ : Int := 16
def KeyW : Int := 17
def KeyE : Int := 18
def KeyR : Int := 19
def KeyT : Int := 20
def KeyY : Int := 21
def KeyU : Int := 22
def KeyI : Int := 23
def KeyO : Int := 24
def KeyP : Int := 25
def KeyLeftbrace : Int := 26
def KeyRightbrace : Int := 27
def KeyEnter : Int := 28
def KeyLeftctrl : Int := 29
def KeyA : Int := 30
def KeyS : Int := 31
def KeyD : Int := 32
def KeyF : Int := 33
def KeyG : Int := 34
def KeyH : Int := 35
def KeyJ : Int := 36
def KeyK : Int := 37
def KeyL : Int := 38
def KeySemicolon : Int := 39
def KeyApostrophe : Int := 40
def KeyLeftshift : Int := 42
def KeyBackslash : Int := 43
def KeyZ : Int := 44
def KeyX : Int := 45
def KeyC : Int := 46
def KeyV : Int := 47
def KeyB : Int := 48
def KeyN : Int := 49
def KeyM : Int := 50
def KeyComma : Int := 51
def KeyDot : Int := 52
def KeySlash : Int := 53
def KeyLeftalt : Int := 56
def KeySpace : Int := 57
def KeyF1 : Int := 59
def KeyF2 : Int := 60
def KeyF3 : Int := 61
def KeyF4 : Int := 62
def KeyF5 : Int := 63
def KeyF6 : Int := 64
def KeyF7 : Int := 65
def KeyF11 : Int := 87
def KeyF12 : Int := 88
def KeyUp : Int := 103
def KeyPageup : Int := 104
def KeyLeft : Int := 105
def KeyRight : Int := 106
def KeyDown : Int := 108
def KeyPagedown : Int := 109
def KeyDelete : Int := 111

end uinput

/-! ## `matrix.go` -/

def C0 : Nat := 4
def C1 : Nat := 17
def C2 : Nat := 18
def C3 : Nat := 27
def C4 : Nat := 22
def C5 : Nat := 23
def C6 : Nat := 24
def C7 : Nat := 25
def C8 : Nat := 5

def R0 : Nat := 6
def R1 : Nat := 12
def R2 : Nat := 13
def R3 : Nat := 19
def R4 : Nat := 16
def R5 : Nat := 26
def R6 : Nat := 20
def R7 : Nat := 21

/-- PinConfig holds the pin configuration for the keyboard matrix. -/
structure PinConfig where
  ColumnPins : List Nat
  RowPins : List Nat
  deriving DecidableEq, Repr

/-- DefaultPinConfig returns the default pin configuration. -/
def DefaultPinConfig : PinConfig :=
  { ColumnPins := [C0, C1, C2, C3, C4, C5, C6, C7, C8]
    RowPins := [R0, R1, R2, R3, R4, R5, R6, R7] }

/-- KeyMatrix maps (row, col) to Linux key codes (the Go array `[8][9]int`). -/
def KeyMatrix : List (List Int) :=
  [ -- Row 0
    [uinput.KeyZ, uinput.KeyA, uinput.KeyQ, uinput.KeyO,
     uinput.Key1, uinput.Key9, uinput.KeyBackspace, uinput.KeyF1,
     uinput.KeyLeftshift],
    -- Row 1
    [uinput.KeyX, uinput.KeyS, uinput.KeyW, uinput.KeyP,
     uinput.Key2, uinput.Key0, uinput.KeyUp, uinput.KeyF2,
     uinput.KeyLeftctrl],
    -- Row 2
    [uinput.KeyC, uinput.KeyD, uinput.KeyE, uinput.KeyEqual,
     uinput.Key3, uinput.KeySemicolon, uinput.KeyDown, uinput.KeyF3,
     uinput.KeyLeftalt],
    -- Row 3
    [uinput.KeyV, uinput.KeyF, uinput.KeyR, uinput.KeyBackslash,
     uinput.Key4, uinput.KeyApostrophe, uinput.KeyLeft, uinput.KeyF4,
     uinput.KeyLeftshift], -- CODE key position
    -- Row 4
    [uinput.KeyB, uinput.KeyG, uinput.KeyT, uinput.KeyComma,
     uinput.Key5, uinput.KeyMinus, uinput.KeyRight, uinput.KeyF5,
     uinput.KeyLeftshift],
    -- Row 5
    [uinput.KeyN, uinput.KeyH, uinput.KeyY, uinput.KeyDot,
     uinput.Key6, uinput.KeyLeftbrace, uinput.KeyTab, uinput.KeyF6,
     uinput.KeyLeftshift],
    -- Row 6
    [uinput.KeyM, uinput.KeyJ, uinput.KeyU, uinput.KeySlash,
     uinput.Key7, uinput.KeySpace, uinput.KeyEsc, uinput.KeyF7,
     uinput.KeyLeftshift],
    -- Row 7
    [uinput.KeyL, uinput.KeyK, uinput.KeyI, uinput.KeyRightbrace,
     uinput.Key8, uinput.KeyDelete, uinput.KeyEnter, uinput.KeyF11,
     uinput.KeyF12] ]

/-- The row `KeyMatrix[row]`; the empty row stands for an index outside the array, which
no caller reaches (every use is guarded by the bounds test of `handleKeyPress` or by a
comparison with a fixed in-range position). -/
def keyMatrixRow (row : Nat) : List Int :=
  KeyMatrix.getD row []

/-- The entry `KeyMatrix[row][col]`. -/
def keyMatrixAt (row col : Nat) : Int :=
  (keyMatrixRow row).getD col 0

def ShiftRow1 : Nat := 0
def ShiftCol : Nat := 8
def CtrlRow : Nat := 1
def CtrlCol : Nat := 8
def AltRow : Nat := 2
def AltCol : Nat := 8
def CodeRow : Nat := 3
def CodeCol : Nat := 8

/-- Special CODE key combinations. -/
structure CodeKey where
  Row : Nat
  Col : Nat
  Key : Int
  deriving DecidableEq, Repr

def CodeKeys : List CodeKey :=
  [ { Row := 6, Col := 5, Key := uinput.KeyPageup },   -- CODE + Space = PageUp
    { Row := 7, Col := 5, Key := uinput.KeyPagedown } ] -- CODE + Delete = PageDown

/-! ## The external keyboard and `device.go` -/

/-- One call issued to the external `uinput.Keyboard`. -/
inductive KbEvent where
  | keyDown (key : Int)
  | keyUp (key : Int)
  | keyPress (key : Int)
  deriving DecidableEq, Repr

/-- The external `uinput.Keyboard`: `events` are the calls issued so far, oldest first (a
call that fails is recorded as well); `faults` scripts the outcomes of the calls to come,
`true` for a call that returns an error, and an exhausted script means success. -/
structure Keyboard where
  events : List KbEvent
  faults : List Bool
  deriving DecidableEq, Repr

/-- Issue one call: record it and take its outcome off the script. -/
def Keyboard.call (kb : Keyboard) (e : KbEvent) : Bool × Keyboard :=
  match kb.faults with
  | [] => (false, { events := kb.events ++ [e], faults := [] })
  | f :: rest => (f, { events := kb.events ++ [e], faults := rest })

def Keyboard.KeyDown (kb : Keyboard) (key : Int) : Bool × Keyboard :=
  kb.call (.keyDown key)

def Keyboard.KeyUp (kb : Keyboard) (key : Int) : Bool × Keyboard :=
  kb.call (.keyUp key)

def Keyboard.KeyPress (kb : Keyboard) (key : Int) : Bool × Keyboard :=
  kb.call (.keyPress key)

/-- Device wraps a uinput keyboard device. -/
structure Device where
  kb : Keyboard
  deriving DecidableEq, Repr

/-- EmitKey sends a single key press and release. -/
def Device.EmitKey (d : Device) (key : Int) : Bool × Device :=
  let r := d.kb.KeyPress key
  if r.1 then (true, { kb := r.2 }) else (false, { kb := r.2 })

/-- The loop "press all modifiers" of `EmitCombo`; it stops at the first error. -/
def pressModifiers : List Int → Keyboard → Bool × Keyboard
  | [], kb => (false, kb)
  | mod :: rest, kb =>
    let r := kb.KeyDown mod
    if r.1 then (true, r.2) else pressModifiers rest r.2

/-- The loop "release all modifiers" of `EmitCombo`, run over the modifiers from the last
index down to 0, here passed already reversed; it stops at the first error. -/
def releaseModifiers : List Int → Keyboard → Bool × Keyboard
  | [], kb => (false, kb)
  | mod :: rest, kb =>
    let r := kb.KeyUp mod
    if r.1 then (true, r.2) else releaseModifiers rest r.2

/-- EmitCombo sends a key combination (e.g., Ctrl+C). -/
def Device.EmitCombo (d : Device) (modifiers : List Int) (key : Int) : Bool × Device :=
  let r1 := pressModifiers modifiers d.kb
  if r1.1 then (true, { kb := r1.2 }) else
  let r2 := r1.2.KeyPress key
  if r2.1 then (true, { kb := r2.2 }) else
  let r3 := releaseModifiers modifiers.reverse r2.2
  if r3.1 then (true, { kb := r3.2 }) else (false, { kb := r3.2 })

/-- Modelled from the spec: `Device.KeyDown`, which `scanner.go` calls and `device.go` does
not define. The spec lists, for the virtual input device, "emit key-down, key-up, and full
press (down+up) for a given logical key identity": the method forwards to the keyboard's
key-down, as `EmitKey` forwards to its key press. -/
def Device.KeyDown (d : Device) (key : Int) : Bool × Device :=
  let r := d.kb.KeyDown key
  (r.1, { kb := r.2 })

/-- Modelled from the spec: `Device.KeyUp`, which `scanner.go` calls and `device.go` does
not define; it forwards to the keyboard's key-up (see `Device.KeyDown`). -/
def Device.KeyUp (d : Device) (key : Int) : Bool × Device :=
  let r := d.kb.KeyUp key
  (r.1, { kb := r.2 })

/-! ## `scanner.go` -/

/-- KeyState tracks the state of a single key. The field `LastPress` of the Go struct is
never written or read and is left out. -/
structure KeyState where
  Pressed : Bool
  deriving DecidableEq, Repr

/-- One invocation of a press or release handler. -/
inductive HandlerCall where
  | press (row col : Nat)
  | release (row col : Nat)
  deriving DecidableEq, Repr

/-- Scanner handles keyboard matrix scanning and input.

* The fields `config` (delays only), `columns` (its reads are arguments of the scan
  functions), `chip` and `mu` of the Go struct are left out.
* `rowWrites` is the history of the value vectors passed to `s.rows.SetValues`, oldest
  first.
* `keyStates` is the Go map `map[string]*KeyState`; its key `fmt.Sprintf("%d:%d", rowIdx,
  colIdx)` is represented by the pair `(rowIdx, colIdx)`, which it determines.
* `dispatched` is a history variable that is not a field of the Go struct: the handler
  invocations so far, oldest first, appended to on entry of `handleKeyPress` and
  `handleKeyRelease`. No definition reads it. -/
structure Scanner where
  device : Device
  rowWrites : List (List Int)
  keyStates : Nat × Nat → Option KeyState
  shift : Bool
  ctrl : Bool
  alt : Bool
  code : Bool
  dispatched : List HandlerCall

/-- The Scanner value that `New` builds once every acquisition has succeeded: an empty key
state table and all modifier flags false. -/
def newScanner (dev : Device) : Scanner :=
  { device := dev
    rowWrites := []
    keyStates := fun _ => none
    shift := false
    ctrl := false
    alt := false
    code := false
    dispatched := [] }

/-- The map key `fmt.Sprintf("%d:%d", rowIdx, colIdx)`. -/
def keyID (rowIdx colIdx : Nat) : Nat × Nat :=
  (rowIdx, colIdx)

/-- The map store `s.keyStates[keyID] = state`, also used for an assignment to
`state.Pressed` through the stored pointer. -/
def Scanner.setKeyState (s : Scanner) (id : Nat × Nat) (state : KeyState) : Scanner :=
  { s with keyStates := fun k => if k = id then some state else s.keyStates k }

/-- setRow sets a specific row pin to the given value. A failing `SetValues` is only
logged. -/
def Scanner.setRow (s : Scanner) (rowIdx : Nat) (value : Int) : Scanner :=
  let values := (List.replicate DefaultPinConfig.RowPins.length (0 : Int)).set rowIdx value
  { s with rowWrites := s.rowWrites ++ [values] }

/-- handleModifier checks if this is a modifier key and updates state. -/
def Scanner.handleModifier (s : Scanner) (row col : Nat) : Bool × Scanner :=
  if col = ShiftCol ∧ (row = 0 ∨ row = 4 ∨ row = 5 ∨ row = 6) then
    -- Rows 0, 4, 5, 6 all have Shift in column 8
    let s1 := { s with shift := true }
    (true, { s1 with device := (s1.device.KeyDown (keyMatrixAt row col)).2 })
  else if row = CtrlRow ∧ col = CtrlCol then
    let s1 := { s with ctrl := true }
    (true, { s1 with device := (s1.device.KeyDown (keyMatrixAt row col)).2 })
  else if row = AltRow ∧ col = AltCol then
    let s1 := { s with alt := true }
    (true, { s1 with device := (s1.device.KeyDown (keyMatrixAt row col)).2 })
  else if row = CodeRow ∧ col = CodeCol then
    -- CODE key is special - don't emit it
    (true, { s with code := true })
  else
    (false, s)

/-- The loop of `handleCodeKey` over the entries of `CodeKeys`. -/
def handleCodeKeyLoop (row col : Nat) : List CodeKey → Scanner → Bool × Scanner
  | [], s => (false, s)
  | ck :: rest, s =>
    if ck.Row = row ∧ ck.Col = col then
      (true, { s with device := (s.device.EmitKey ck.Key).2 })
    else
      handleCodeKeyLoop row col rest s

/-- handleCodeKey checks if this is a special CODE key combination. -/
def Scanner.handleCodeKey (s : Scanner) (row col : Nat) : Bool × Scanner :=
  handleCodeKeyLoop row col CodeKeys s

/-- emitKey emits a key press with the current modifier state. -/
def Scanner.emitKey (s : Scanner) (key : Int) : Bool × Scanner :=
  if s.ctrl then
    let r := s.device.EmitCombo [uinput.KeyLeftctrl] key
    (r.1, { s with device := r.2 })
  else if s.shift then
    let r := s.device.EmitCombo [uinput.KeyLeftshift] key
    (r.1, { s with device := r.2 })
  else if s.alt then
    let r := s.device.EmitCombo [uinput.KeyLeftalt] key
    (r.1, { s with device := r.2 })
  else
    let r := s.device.EmitKey key
    (r.1, { s with device := r.2 })

/-- handleKeyPress handles a detected key press (only called on key down transition). -/
def Scanner.handleKeyPress (s : Scanner) (row col : Nat) : Scanner :=
  let s0 := { s with dispatched := s.dispatched ++ [HandlerCall.press row col] }
  -- Handle modifier keys
  let m := s0.handleModifier row col
  if m.1 then m.2 else
  -- Handle CODE key combinations: `s.code && s.handleCodeKey(row, col)`
  let c := if m.2.code then m.2.handleCodeKey row col else (false, m.2)
  if c.1 then { c.2 with code := false } else
  -- Get the key code
  if row ≥ KeyMatrix.length ∨ col ≥ (keyMatrixRow row).length then c.2 else
  let key := keyMatrixAt row col
  -- Emit the key with modifiers; an error is only logged
  let e := c.2.emitKey key
  -- Only clear CODE key (it's one-shot)
  { e.2 with code := false }

/-- handleKeyRelease handles a detected key release. -/
def Scanner.handleKeyRelease (s : Scanner) (row col : Nat) : Scanner :=
  let s0 := { s with dispatched := s.dispatched ++ [HandlerCall.release row col] }
  if col = ShiftCol ∧ (row = 0 ∨ row = 4 ∨ row = 5 ∨ row = 6) then
    let s1 := { s0 with shift := false }
    { s1 with device := (s1.device.KeyUp (keyMatrixAt row col)).2 }
  else if row = CtrlRow ∧ col = CtrlCol then
    let s1 := { s0 with ctrl := false }
    { s1 with device := (s1.device.KeyUp (keyMatrixAt row col)).2 }
  else if row = AltRow ∧ col = AltCol then
    let s1 := { s0 with alt := false }
    { s1 with device := (s1.device.KeyUp (keyMatrixAt row col)).2 }
  else if row = CodeRow ∧ col = CodeCol then
    -- CODE key is special - don't emit it
    { s0 with code := false }
  else
    -- Regular key released - just log it
    s0

/-- The pre-scan `rowHasShift` of `scanMatrix`; `colValues[ShiftCol]` is in range because
the buffer has one entry per column pin. -/
def rowHasShift (rowIdx : Nat) (colValues : List Int) : Bool :=
  decide (colValues.getD ShiftCol 0 = 1 ∧ (rowIdx = 0 ∨ rowIdx = 4 ∨ rowIdx = 5 ∨ rowIdx = 6))

/-- The pre-scan `rowHasCtrl` of `scanMatrix`. -/
def rowHasCtrl (rowIdx : Nat) (colValues : List Int) : Bool :=
  decide (rowIdx = CtrlRow ∧ colValues.getD CtrlCol 0 = 1)

/-- The pre-scan `rowHasAlt` of `scanMatrix`. -/
def rowHasAlt (rowIdx : Nat) (colValues : List Int) : Bool :=
  decide (rowIdx = AltRow ∧ colValues.getD AltCol 0 = 1)

/-- One iteration of the column loop of `scanMatrix` (the body of
`for colIdx, value := range colValues`), given the three pre-scan results of the row. -/
def Scanner.scanColumn (s : Scanner) (hasShift hasCtrl hasAlt : Bool) (rowIdx colIdx : Nat)
    (value : Int) : Scanner :=
  let id := keyID rowIdx colIdx
  -- state, exists := s.keyStates[keyID]; a missing entry is created not pressed
  let s1 := match s.keyStates id with
    | some _ => s
    | none => s.setKeyState id { Pressed := false }
  let state : KeyState := match s.keyStates id with
    | some st => st
    | none => { Pressed := false }
  -- Detect key state transitions
  if value = 1 ∧ state.Pressed = false then
    -- Set modifiers from current row scan before emitting regular keys
    let s2 := if hasShift then { s1 with shift := true } else s1
    let s3 := if hasCtrl then { s2 with ctrl := true } else s2
    let s4 := if hasAlt then { s3 with alt := true } else s3
    -- LOW->HIGH: Key just pressed
    (s4.setKeyState id { Pressed := true }).handleKeyPress rowIdx colIdx
  else if value = 0 ∧ state.Pressed = true then
    -- HIGH->LOW: Key just released
    (s1.setKeyState id { Pressed := false }).handleKeyRelease rowIdx colIdx
  else
    -- No state change
    s1

/-- The column loop of `scanMatrix` over the values that remain, `colIdx` being the index
of the first of them. -/
def scanColumns (hasShift hasCtrl hasAlt : Bool) (rowIdx : Nat) :
    Nat → List Int → Scanner → Scanner
  | _, [], s => s
  | colIdx, value :: rest, s =>
    scanColumns hasShift hasCtrl hasAlt rowIdx (colIdx + 1) rest
      (s.scanColumn hasShift hasCtrl hasAlt rowIdx colIdx value)

/-- The buffer `colValues` after a successful `s.columns.Values(colValues)`: one entry per
column pin, entry `i` holding the level `level i` read on column line `i`. -/
def readColumns (level : Nat → Int) : List Int :=
  (List.range DefaultPinConfig.ColumnPins.length).map level

/-- The state of a row scan whose column read succeeded, when the first `n` iterations of
the column loop are done (all of them when `n` is at least the number of columns). -/
def Scanner.scanRowUpTo (s : Scanner) (rowIdx : Nat) (level : Nat → Int) (n : Nat) :
    Scanner :=
  let colValues := readColumns level
  scanColumns (rowHasShift rowIdx colValues) (rowHasCtrl rowIdx colValues)
    (rowHasAlt rowIdx colValues) rowIdx 0 (colValues.take n) (s.setRow rowIdx 1)

/-- The body of the row loop of `scanMatrix` for row `rowIdx`. The result of
`s.columns.Values(colValues)` is `read`: `none` for an error, `some level` for the levels
read. -/
def Scanner.scanRow (s : Scanner) (rowIdx : Nat) (read : Option (Nat → Int)) : Scanner :=
  -- Set this row high
  let s1 := s.setRow rowIdx 1
  match read with
  | none =>
    -- Failed to read column values
    s1.setRow rowIdx 0
  | some level =>
    let colValues := readColumns level
    -- Pre-scan for modifiers in this row BEFORE processing keys
    let hasShift := rowHasShift rowIdx colValues
    let hasCtrl := rowHasCtrl rowIdx colValues
    let hasAlt := rowHasAlt rowIdx colValues
    -- Check each column for state changes
    let s2 := scanColumns hasShift hasCtrl hasAlt rowIdx 0 colValues s1
    -- Set row back to low
    s2.setRow rowIdx 0

/-- The row loop of `scanMatrix` over the rows that remain; `reads r` is the result of the
column read made for row `r`. -/
def scanRows (reads : Nat → Option (Nat → Int)) : List Nat → Scanner → Scanner
  | [], s => s
  | rowIdx :: rest, s => scanRows reads rest (s.scanRow rowIdx (reads rowIdx))

/-- scanMatrix scans the entire keyboard matrix. -/
def Scanner.scanMatrix (s : Scanner) (reads : Nat → Option (Nat → Int)) : Scanner :=
  scanRows reads (List.range DefaultPinConfig.RowPins.length) s

/-- The ticks of `Run` up to cancellation: one `scanMatrix` per tick, `sweeps` giving the
column reads of each. -/
def Scanner.run (s : Scanner) : List (Nat → Option (Nat → Int)) → Scanner
  | [] => s
  | reads :: rest => Scanner.run (s.scanMatrix reads) rest

/-! ## Vocabulary of the statements -/

/-- The keyboard calls issued so far by the scanner's device. -/
def Scanner.events (s : Scanner) : List KbEvent :=
  s.device.kb.events

/-- Every call still to come succeeds. -/
def Keyboard.reliable (kb : Keyboard) : Prop :=
  ∀ f ∈ kb.faults, f = false

instance (kb : Keyboard) : Decidable kb.reliable := by
  unfold Keyboard.reliable; infer_instance

/-- The shift positions: column 8 of rows 0, 4, 5 and 6 (the first case of the switches in
`handleModifier` and `handleKeyRelease`). -/
def isShiftPosition (row col : Nat) : Prop :=
  col = ShiftCol ∧ (row = 0 ∨ row = 4 ∨ row = 5 ∨ row = 6)

/-- The ctrl position (second case of the switches). -/
def isCtrlPosition (row col : Nat) : Prop :=
  row = CtrlRow ∧ col = CtrlCol

/-- The alt position (third case of the switches). -/
def isAltPosition (row col : Nat) : Prop :=
  row = AltRow ∧ col = AltCol

/-- The CODE position (fourth case of the switches). -/
def isCodePosition (row col : Nat) : Prop :=
  row = CodeRow ∧ col = CodeCol

/-- A position of the 8x9 grid that is none of the shift, ctrl, alt and CODE positions. -/
def isRegularPosition (row col : Nat) : Prop :=
  row < 8 ∧ col < 9 ∧ ¬ isShiftPosition row col ∧ ¬ isCtrlPosition row col ∧
    ¬ isAltPosition row col ∧ ¬ isCodePosition row col

instance (row col : Nat) : Decidable (isShiftPosition row col) := by
  unfold isShiftPosition; infer_instance

instance (row col : Nat) : Decidable (isCtrlPosition row col) := by
  unfold isCtrlPosition; infer_instance

instance (row col : Nat) : Decidable (isAltPosition row col) := by
  unfold isAltPosition; infer_instance

instance (row col : Nat) : Decidable (isCodePosition row col) := by
  unfold isCodePosition; infer_instance

instance (row col : Nat) : Decidable (isRegularPosition row col) := by
  unfold isRegularPosition; infer_instance

/-- Between the states `s` and `t` the handler history has only grown, and if `flag` was
true in `s` then it is still true in `t` or a release call for a position satisfying `pos`
is among the calls added. -/
def ClearedOnlyByRelease (flag : Scanner → Bool) (pos : Nat → Nat → Prop) (s t : Scanner) :
    Prop :=
  ∃ calls : List HandlerCall, t.dispatched = s.dispatched ++ calls ∧
    (flag s = true → flag t = true ∨ ∃ r c, pos r c ∧ HandlerCall.release r c ∈ calls)

/-- The state-machine part of a scanner: the shift, ctrl, alt and code flags and the
recorded key states. -/
def Scanner.machineState (s : Scanner) :
    Bool × Bool × Bool × Bool × (Nat × Nat → Option KeyState) :=
  (s.shift, s.ctrl, s.alt, s.code, s.keyStates)

/-- One step of a handler as the mutex sees it: an operation on `s.mu` or a call issued
to the device. -/
inductive MutexStep where
  | lock
  | unlock
  | deviceCall (e : KbEvent)
  deriving DecidableEq, Repr

/-- The mutex operations and device calls of `handleKeyPress` in program order:
`s.mu.Lock()` on entry, the calls the body issues to the device, and the deferred
`s.mu.Unlock()` when the function returns. -/
def Scanner.handleKeyPressSteps (s : Scanner) (row col : Nat) : List MutexStep :=
  MutexStep.lock ::
    (((s.handleKeyPress row col).events.drop s.events.length).map MutexStep.deviceCall ++
      [MutexStep.unlock])

/-- The mutex operations and device calls of `handleKeyRelease` in program order:
`s.mu.Lock()` on entry, the calls the body issues to the device, and the deferred
`s.mu.Unlock()` when the function returns. -/
def Scanner.handleKeyReleaseSteps (s : Scanner) (row col : Nat) : List MutexStep :=
  MutexStep.lock ::
    (((s.handleKeyRelease row col).events.drop s.events.length).map MutexStep.deviceCall ++
      [MutexStep.unlock])

/-- Whether some device call of the steps is made while the mutex is held; `held` tells
whether it is held before the first step. -/
def deviceCallWhileHeld : Bool → List MutexStep → Bool
  | _, [] => false
  | _, MutexStep.lock :: rest => deviceCallWhileHeld true rest
  | _, MutexStep.unlock :: rest => deviceCallWhileHeld false rest
  | held, MutexStep.deviceCall _ :: rest => held || deviceCallWhileHeld held rest

/-- Whether every device call of the steps is made while the mutex is held; `held` tells
whether it is held before the first step. -/
def everyDeviceCallHeld : Bool → List MutexStep → Bool
  | _, [] => true
  | _, MutexStep.lock :: rest => everyDeviceCallHeld true rest
  | _, MutexStep.unlock :: rest => everyDeviceCallHeld false rest
  | held, MutexStep.deviceCall _ :: rest => held && everyDeviceCallHeld held rest

/-- The position is recorded as pressed in `keyStates`. -/
def Scanner.pressed (s : Scanner) (row col : Nat) : Prop :=
  s.keyStates (keyID row col) = some { Pressed := true }

instance (s : Scanner) (row col : Nat) : Decidable (s.pressed row col) := by
  unfold Scanner.pressed; infer_instance

/-- The relation between the flags and the recorded key states that holds whenever no row
scan is under way: ctrl and alt are true exactly when their position is recorded pressed,
shift is true only if a shift position is recorded pressed, code only if the CODE position
is. -/
def RowEndInvariant (s : Scanner) : Prop :=
  (s.ctrl = true ↔ s.pressed 1 8) ∧
  (s.alt = true ↔ s.pressed 2 8) ∧
  (s.shift = true → s.pressed 0 8 ∨ s.pressed 4 8 ∨ s.pressed 5 8 ∨ s.pressed 6 8) ∧
  (s.code = true → s.pressed 3 8)

/-- The relation between the flags and the recorded key states inside the scan of row
`row`, when `n` columns are done; `high8` says that column 8 of the row reads high. A
modifier flag may then already be true, set by the pre-scan, while column 8 is still to
come. -/
def MidRowInvariant (row : Nat) (high8 : Prop) (n : Nat) (s : Scanner) : Prop :=
  (s.pressed 1 8 → s.ctrl = true) ∧
  (s.ctrl = true → s.pressed 1 8 ∨ (row = 1 ∧ high8 ∧ n ≤ 8)) ∧
  (s.pressed 2 8 → s.alt = true) ∧
  (s.alt = true → s.pressed 2 8 ∨ (row = 2 ∧ high8 ∧ n ≤ 8)) ∧
  (s.shift = true → (s.pressed 0 8 ∨ s.pressed 4 8 ∨ s.pressed 5 8 ∨ s.pressed 6 8) ∨
    ((row = 0 ∨ row = 4 ∨ row = 5 ∨ row = 6) ∧ high8 ∧ n ≤ 8)) ∧
  (s.code = true → s.pressed 3 8)

/-- The calls `es` issued to the keyboard one after the other, stopping after the first
one that fails; the result tells whether one failed. Both loops of `EmitCombo` and its
key press in between are of this shape. -/
def Keyboard.callSeq : List KbEvent → Keyboard → Bool × Keyboard
  | [], kb => (false, kb)
  | e :: rest, kb =>
    if (kb.call e).1 then (true, (kb.call e).2) else Keyboard.callSeq rest (kb.call e).2

/-- The calls of a successful `EmitCombo`: the modifiers down in order, the key press, the
modifiers up in reverse order. -/
def comboCalls (modifiers : List Int) (key : Int) : List KbEvent :=
  modifiers.map KbEvent.keyDown ++ [KbEvent.keyPress key] ++
    modifiers.reverse.map KbEvent.keyUp

/-- The four resources that `New` acquires, in the order of acquisition: the uinput
device, the GPIO chip, the column lines and the row lines. -/
inductive Resource where
  | device
  | chip
  | columns
  | rows
  deriving DecidableEq, Repr

/-- An acquisition that succeeded, or a call of `Close` on a resource. -/
inductive ResourceOp where
  | acquire (r : Resource)
  | close (r : Resource)
  deriving DecidableEq, Repr

/-- New creates a new keyboard scanner. Whether the acquisition of a resource succeeds
(`uinputdev.New`, `gpiocdev.NewChip` and the two `chip.RequestLines`) is given by
`acquires`, and `dev` is the device that `uinputdev.New` returns when it succeeds. The
first component is the Go result `(*Scanner, error)`: an error message for `nil, err` (the
wrapped cause left out), the scanner for `scanner, nil`. The second component lists the
successful acquisitions and the `Close` calls in the order in which they are made. -/
def New (acquires : Resource → Bool) (dev : Device) :
    Except String Scanner × List ResourceOp :=
  -- Create uinput device
  if acquires Resource.device = false then
    (Except.error "failed to create uinput device", [])
  else
  -- Open GPIO chip
  if acquires Resource.chip = false then
    (Except.error "failed to open GPIO chip",
      [ResourceOp.acquire Resource.device, ResourceOp.close Resource.device])
  else
  -- Request column pins as inputs with pull-down
  if acquires Resource.columns = false then
    (Except.error "failed to request column pins",
      [ResourceOp.acquire Resource.device, ResourceOp.acquire Resource.chip,
        ResourceOp.close Resource.chip, ResourceOp.close Resource.device])
  else
  -- Request row pins as outputs (initially low)
  if acquires Resource.rows = false then
    (Except.error "failed to request row pins",
      [ResourceOp.acquire Resource.device, ResourceOp.acquire Resource.chip,
        ResourceOp.acquire Resource.columns,
        ResourceOp.close Resource.columns, ResourceOp.close Resource.chip,
        ResourceOp.close Resource.device])
  else
    (Except.ok (newScanner dev),
      [ResourceOp.acquire Resource.device, ResourceOp.acquire Resource.chip,
        ResourceOp.acquire Resource.columns, ResourceOp.acquire Resource.rows])

/-- The resources acquired according to a list of operations, in order. -/
def acquiredResources : List ResourceOp → List Resource
  | [] => []
  | ResourceOp.acquire r :: rest => r :: acquiredResources rest
  | ResourceOp.close _ :: rest => acquiredResources rest

/-- The resources closed according to a list of operations, in order. -/
def closedResources : List ResourceOp → List Resource
  | [] => []
  | ResourceOp.acquire _ :: rest => closedResources rest
  | ResourceOp.close r :: rest => r :: closedResources rest

/-! ## The keyboard and the device -/

theorem Keyboard.call_events (kb : Keyboard) (e : KbEvent) :
    (kb.call e).2.events = kb.events ++ [e] := by
  unfold Keyboard.call
  cases kb.faults <;> rfl

theorem Keyboard.call_reliable (kb : Keyboard) (e : KbEvent) (h : kb.reliable) :
    (kb.call e).1 = false ∧ (kb.call e).2.reliable := by
  unfold Keyboard.reliable at h
  unfold Keyboard.call Keyboard.reliable
  cases hf : kb.faults with
  | nil => simp
  | cons f rest =>
    rw [hf] at h
    simp only [List.mem_cons, forall_eq_or_imp] at h
    exact ⟨h.1, h.2⟩

theorem Device.EmitKey_events (d : Device) (key : Int) :
    (d.EmitKey key).2.kb.events = d.kb.events ++ [KbEvent.keyPress key] := by
  unfold Device.EmitKey Keyboard.KeyPress
  by_cases h : (d.kb.call (KbEvent.keyPress key)).1 = true <;> simp [h, Keyboard.call_events]

theorem pressModifiers_reliable (mods : List Int) (kb : Keyboard) (h : kb.reliable) :
    (pressModifiers mods kb).1 = false ∧ (pressModifiers mods kb).2.reliable ∧
      (pressModifiers mods kb).2.events = kb.events ++ mods.map KbEvent.keyDown := by
  induction mods generalizing kb with
  | nil => simp [pressModifiers, h]
  | cons m rest ih =>
    have hc := Keyboard.call_reliable kb (.keyDown m) h
    have he := Keyboard.call_events kb (.keyDown m)
    simp only [pressModifiers, Keyboard.KeyDown, hc.1, Bool.false_eq_true, if_false]
    obtain ⟨h1, h2, h3⟩ := ih _ hc.2
    refine ⟨h1, h2, ?_⟩
    rw [h3, he]
    simp

theorem releaseModifiers_reliable (mods : List Int) (kb : Keyboard) (h : kb.reliable) :
    (releaseModifiers mods kb).1 = false ∧ (releaseModifiers mods kb).2.reliable ∧
      (releaseModifiers mods kb).2.events = kb.events ++ mods.map KbEvent.keyUp := by
  induction mods generalizing kb with
  | nil => simp [releaseModifiers, h]
  | cons m rest ih =>
    have hc := Keyboard.call_reliable kb (.keyUp m) h
    have he := Keyboard.call_events kb (.keyUp m)
    simp only [releaseModifiers, Keyboard.KeyUp, hc.1, Bool.false_eq_true, if_false]
    obtain ⟨h1, h2, h3⟩ := ih _ hc.2
    refine ⟨h1, h2, ?_⟩
    rw [h3, he]
    simp

/-- On a keyboard that does not fail, `EmitCombo` presses the modifiers in order, taps the
key and releases the modifiers in reverse order. -/
theorem Device.EmitCombo_reliable (d : Device) (mods : List Int) (key : Int)
    (h : d.kb.reliable) :
    (d.EmitCombo mods key).1 = false ∧ (d.EmitCombo mods key).2.kb.reliable ∧
      (d.EmitCombo mods key).2.kb.events =
        d.kb.events ++ mods.map KbEvent.keyDown ++ [KbEvent.keyPress key] ++
          mods.reverse.map KbEvent.keyUp := by
  obtain ⟨p1, p2, p3⟩ := pressModifiers_reliable mods d.kb h
  have hc := Keyboard.call_reliable (pressModifiers mods d.kb).2 (.keyPress key) p2
  have he := Keyboard.call_events (pressModifiers mods d.kb).2 (.keyPress key)
  obtain ⟨r1, r2, r3⟩ := releaseModifiers_reliable mods.reverse _ hc.2
  simp only [Device.EmitCombo, Keyboard.KeyPress, p1, hc.1, r1, Bool.false_eq_true, if_false]
  refine ⟨trivial, r2, ?_⟩
  rw [r3, he, p3]

/-! ## The press handler on regular keys -/

theorem KeyMatrix_length : KeyMatrix.length = 8 := rfl

theorem keyMatrixRow_length (row : Nat) (h : row < 8) : (keyMatrixRow row).length = 9 := by
  interval_cases row <;> rfl

/-- The bounds test of `handleKeyPress` passes on the grid. -/
theorem inGrid_bounds (row col : Nat) (hr : row < 8) (hc : col < 9) :
    ¬ (row ≥ KeyMatrix.length ∨ col ≥ (keyMatrixRow row).length) := by
  rw [KeyMatrix_length, keyMatrixRow_length row hr]
  omega

theorem handleModifier_regular (s : Scanner) (row col : Nat)
    (h : isRegularPosition row col) : s.handleModifier row col = (false, s) := by
  obtain ⟨_, _, h1, h2, h3, h4⟩ := h
  unfold isShiftPosition at h1
  unfold isCtrlPosition at h2
  unfold isAltPosition at h3
  unfold isCodePosition at h4
  unfold Scanner.handleModifier
  rw [if_neg h1, if_neg h2, if_neg h3, if_neg h4]

/-- With the code flag false, a press of a regular position goes to `emitKey` with the
matrix key. -/
theorem handleKeyPress_regular_unarmed (s : Scanner) (row col : Nat)
    (hpos : isRegularPosition row col) (hcode : s.code = false) :
    s.handleKeyPress row col =
      { ({ s with dispatched := s.dispatched ++ [HandlerCall.press row col] }.emitKey
          (keyMatrixAt row col)).2 with code := false } := by
  unfold Scanner.handleKeyPress
  simp only [handleModifier_regular _ row col hpos, hcode, Bool.false_eq_true, if_false,
    if_neg (inGrid_bounds row col hpos.1 hpos.2.1)]

/-- The events that `emitKey` adds on a keyboard that does not fail. -/
theorem emitKey_events (s : Scanner) (key : Int) (hrel : s.device.kb.reliable) :
    (s.emitKey key).2.events = s.events ++
      (if s.ctrl then
        [KbEvent.keyDown uinput.KeyLeftctrl, KbEvent.keyPress key,
          KbEvent.keyUp uinput.KeyLeftctrl]
      else if s.shift then
        [KbEvent.keyDown uinput.KeyLeftshift, KbEvent.keyPress key,
          KbEvent.keyUp uinput.KeyLeftshift]
      else if s.alt then
        [KbEvent.keyDown uinput.KeyLeftalt, KbEvent.keyPress key,
          KbEvent.keyUp uinput.KeyLeftalt]
      else [KbEvent.keyPress key]) := by
  unfold Scanner.emitKey Scanner.events
  by_cases hc : s.ctrl = true
  · simp [hc, (Device.EmitCombo_reliable s.device [uinput.KeyLeftctrl] key hrel).2.2]
  · by_cases hs : s.shift = true
    · simp [hc, hs, (Device.EmitCombo_reliable s.device [uinput.KeyLeftshift] key hrel).2.2]
    · by_cases ha : s.alt = true
      · simp [hc, hs, ha, (Device.EmitCombo_reliable s.device [uinput.KeyLeftalt] key hrel).2.2]
      · simp [hc, hs, ha, Device.EmitKey_events]

/-- The one device call that `emitKey` makes. -/
theorem emitKey_device (s : Scanner) (key : Int) :
    (s.emitKey key).2.device =
      (if s.ctrl then s.device.EmitCombo [uinput.KeyLeftctrl] key
      else if s.shift then s.device.EmitCombo [uinput.KeyLeftshift] key
      else if s.alt then s.device.EmitCombo [uinput.KeyLeftalt] key
      else s.device.EmitKey key).2 := by
  unfold Scanner.emitKey
  split_ifs <;> rfl

/-- C1: a press of a regular in-grid position with the code flag false makes exactly one
device call for the matrix key k: the combination with LeftCtrl if ctrl is set (whatever
shift and alt are), else the combination with LeftShift if shift is set, else the
combination with LeftAlt if alt is set, else the plain key. On a keyboard whose calls
succeed the events emitted are exactly [down LeftCtrl, press k, up LeftCtrl], else
[down LeftShift, press k, up LeftShift], else [down LeftAlt, press k, up LeftAlt], else
[press k]. -/
theorem handleKeyPress_regular_emits (s : Scanner) (row col : Nat)
    (hpos : isRegularPosition row col) (hcode : s.code = false) :
    (s.handleKeyPress row col).device =
        (if s.ctrl then s.device.EmitCombo [uinput.KeyLeftctrl] (keyMatrixAt row col)
        else if s.shift then s.device.EmitCombo [uinput.KeyLeftshift] (keyMatrixAt row col)
        else if s.alt then s.device.EmitCombo [uinput.KeyLeftalt] (keyMatrixAt row col)
        else s.device.EmitKey (keyMatrixAt row col)).2 ∧
      (s.device.kb.reliable →
        (s.handleKeyPress row col).events = s.events ++
          (if s.ctrl then
            [KbEvent.keyDown uinput.KeyLeftctrl, KbEvent.keyPress (keyMatrixAt row col),
              KbEvent.keyUp uinput.KeyLeftctrl]
          else if s.shift then
            [KbEvent.keyDown uinput.KeyLeftshift, KbEvent.keyPress (keyMatrixAt row col),
              KbEvent.keyUp uinput.KeyLeftshift]
          else if s.alt then
            [KbEvent.keyDown uinput.KeyLeftalt, KbEvent.keyPress (keyMatrixAt row col),
              KbEvent.keyUp uinput.KeyLeftalt]
          else [KbEvent.keyPress (keyMatrixAt row col)])) := by
  rw [handleKeyPress_regular_unarmed s row col hpos hcode]
  exact ⟨emitKey_device _ _, fun hrel => emitKey_events _ _ hrel⟩

/-- C1, witness: on a new scanner (no flag set) a press of (0,1) emits only a press of
KeyA. -/
theorem handleKeyPress_regular_emits_witness :
    ((newScanner { kb := { events := [], faults := [] } }).handleKeyPress 0 1).events =
      [KbEvent.keyPress uinput.KeyA] :=
  (handleKeyPress_regular_emits (newScanner { kb := { events := [], faults := [] } }) 0 1
    (by decide) rfl).2 (by simp [Keyboard.reliable, newScanner])

/-! ## Frame lemmas for the handlers -/

theorem Device.KeyDown_events (d : Device) (key : Int) :
    (d.KeyDown key).2.kb.events = d.kb.events ++ [KbEvent.keyDown key] := by
  simp [Device.KeyDown, Keyboard.KeyDown, Keyboard.call_events]

theorem Device.KeyUp_events (d : Device) (key : Int) :
    (d.KeyUp key).2.kb.events = d.kb.events ++ [KbEvent.keyUp key] := by
  simp [Device.KeyUp, Keyboard.KeyUp, Keyboard.call_events]

/-- The loop of `handleCodeKey` changes nothing but the device. -/
theorem handleCodeKeyLoop_frame (row col : Nat) (l : List CodeKey) (s : Scanner) :
    (handleCodeKeyLoop row col l s).2 =
      { s with device := (handleCodeKeyLoop row col l s).2.device } := by
  induction l with
  | nil => rfl
  | cons ck rest ih =>
    unfold handleCodeKeyLoop
    by_cases h : ck.Row = row ∧ ck.Col = col
    · rw [if_pos h]
    · rw [if_neg h]; exact ih

/-- The loop of `handleCodeKey` reports no match exactly when it leaves the scanner as it
is. -/
theorem handleCodeKeyLoop_unmatched (row col : Nat) (l : List CodeKey) (s : Scanner)
    (h : (handleCodeKeyLoop row col l s).1 = false) : (handleCodeKeyLoop row col l s).2 = s := by
  induction l with
  | nil => rfl
  | cons ck rest ih =>
    unfold handleCodeKeyLoop at h ⊢
    by_cases hck : ck.Row = row ∧ ck.Col = col
    · rw [if_pos hck] at h; simp at h
    · rw [if_neg hck] at h ⊢; exact ih h

/-- The method `emitKey` changes nothing but the device. -/
theorem emitKey_frame (s : Scanner) (key : Int) :
    (s.emitKey key).2 = { s with device := (s.emitKey key).2.device } := by
  unfold Scanner.emitKey
  split_ifs <;> rfl

theorem keyMatrixAt_shift (row col : Nat) (h : isShiftPosition row col) :
    keyMatrixAt row col = uinput.KeyLeftshift := by
  obtain ⟨rfl, h | h | h | h⟩ := h <;> subst h <;> rfl

theorem keyMatrixAt_ctrl (row col : Nat) (h : isCtrlPosition row col) :
    keyMatrixAt row col = uinput.KeyLeftctrl := by
  obtain ⟨rfl, rfl⟩ := h; rfl

theorem keyMatrixAt_alt (row col : Nat) (h : isAltPosition row col) :
    keyMatrixAt row col = uinput.KeyLeftalt := by
  obtain ⟨rfl, rfl⟩ := h; rfl

/-- The four special kinds of position exclude one another. -/
theorem position_kinds_disjoint (row col : Nat) :
    (isShiftPosition row col → ¬ isCtrlPosition row col ∧ ¬ isAltPosition row col ∧
        ¬ isCodePosition row col) ∧
      (isCtrlPosition row col → ¬ isShiftPosition row col ∧ ¬ isAltPosition row col ∧
        ¬ isCodePosition row col) ∧
      (isAltPosition row col → ¬ isShiftPosition row col ∧ ¬ isCtrlPosition row col ∧
        ¬ isCodePosition row col) ∧
      (isCodePosition row col → ¬ isShiftPosition row col ∧ ¬ isCtrlPosition row col ∧
        ¬ isAltPosition row col) := by
  unfold isShiftPosition isCtrlPosition isAltPosition isCodePosition
  unfold ShiftCol CtrlRow CtrlCol AltRow AltCol CodeRow CodeCol
  omega

theorem handleKeyPress_shiftPos (s : Scanner) (row col : Nat) (h : isShiftPosition row col) :
    s.handleKeyPress row col =
      { s with
        dispatched := s.dispatched ++ [HandlerCall.press row col]
        shift := true
        device := (s.device.KeyDown (keyMatrixAt row col)).2 } := by
  unfold isShiftPosition at h
  unfold Scanner.handleKeyPress Scanner.handleModifier
  simp only [if_pos h, if_true]

theorem handleKeyPress_ctrlPos (s : Scanner) (row col : Nat) (h : isCtrlPosition row col) :
    s.handleKeyPress row col =
      { s with
        dispatched := s.dispatched ++ [HandlerCall.press row col]
        ctrl := true
        device := (s.device.KeyDown (keyMatrixAt row col)).2 } := by
  have h1 := ((position_kinds_disjoint row col).2.1 h).1
  unfold isShiftPosition at h1
  unfold isCtrlPosition at h
  unfold Scanner.handleKeyPress Scanner.handleModifier
  simp only [if_neg h1, if_pos h, if_true]

theorem handleKeyPress_altPos (s : Scanner) (row col : Nat) (h : isAltPosition row col) :
    s.handleKeyPress row col =
      { s with
        dispatched := s.dispatched ++ [HandlerCall.press row col]
        alt := true
        device := (s.device.KeyDown (keyMatrixAt row col)).2 } := by
  obtain ⟨h1, h2, _⟩ := (position_kinds_disjoint row col).2.2.1 h
  unfold isShiftPosition at h1
  unfold isCtrlPosition at h2
  unfold isAltPosition at h
  unfold Scanner.handleKeyPress Scanner.handleModifier
  simp only [if_neg h1, if_neg h2, if_pos h, if_true]

theorem handleKeyPress_codePos (s : Scanner) (row col : Nat) (h : isCodePosition row col) :
    s.handleKeyPress row col =
      { s with
        dispatched := s.dispatched ++ [HandlerCall.press row col]
        code := true } := by
  obtain ⟨h1, h2, h3⟩ := (position_kinds_disjoint row col).2.2.2 h
  unfold isShiftPosition at h1
  unfold isCtrlPosition at h2
  unfold isAltPosition at h3
  unfold isCodePosition at h
  unfold Scanner.handleKeyPress Scanner.handleModifier
  simp only [if_neg h1, if_neg h2, if_neg h3, if_pos h, if_true]

theorem handleKeyRelease_shiftPos (s : Scanner) (row col : Nat) (h : isShiftPosition row col) :
    s.handleKeyRelease row col =
      { s with
        dispatched := s.dispatched ++ [HandlerCall.release row col]
        shift := false
        device := (s.device.KeyUp (keyMatrixAt row col)).2 } := by
  unfold isShiftPosition at h
  unfold Scanner.handleKeyRelease
  simp only [if_pos h]

theorem handleKeyRelease_ctrlPos (s : Scanner) (row col : Nat) (h : isCtrlPosition row col) :
    s.handleKeyRelease row col =
      { s with
        dispatched := s.dispatched ++ [HandlerCall.release row col]
        ctrl := false
        device := (s.device.KeyUp (keyMatrixAt row col)).2 } := by
  have h1 := ((position_kinds_disjoint row col).2.1 h).1
  unfold isShiftPosition at h1
  unfold isCtrlPosition at h
  unfold Scanner.handleKeyRelease
  simp only [if_neg h1, if_pos h]

theorem handleKeyRelease_altPos (s : Scanner) (row col : Nat) (h : isAltPosition row col) :
    s.handleKeyRelease row col =
      { s with
        dispatched := s.dispatched ++ [HandlerCall.release row col]
        alt := false
        device := (s.device.KeyUp (keyMatrixAt row col)).2 } := by
  obtain ⟨h1, h2, _⟩ := (position_kinds_disjoint row col).2.2.1 h
  unfold isShiftPosition at h1
  unfold isCtrlPosition at h2
  unfold isAltPosition at h
  unfold Scanner.handleKeyRelease
  simp only [if_neg h1, if_neg h2, if_pos h]

theorem handleKeyRelease_codePos (s : Scanner) (row col : Nat) (h : isCodePosition row col) :
    s.handleKeyRelease row col =
      { s with
        dispatched := s.dispatched ++ [HandlerCall.release row col]
        code := false } := by
  obtain ⟨h1, h2, h3⟩ := (position_kinds_disjoint row col).2.2.2 h
  unfold isShiftPosition at h1
  unfold isCtrlPosition at h2
  unfold isAltPosition at h3
  unfold isCodePosition at h
  unfold Scanner.handleKeyRelease
  simp only [if_neg h1, if_neg h2, if_neg h3, if_pos h]

/-- A release anywhere else only enters the handler. -/
theorem handleKeyRelease_other (s : Scanner) (row col : Nat)
    (h1 : ¬ isShiftPosition row col) (h2 : ¬ isCtrlPosition row col)
    (h3 : ¬ isAltPosition row col) (h4 : ¬ isCodePosition row col) :
    s.handleKeyRelease row col =
      { s with dispatched := s.dispatched ++ [HandlerCall.release row col] } := by
  unfold isShiftPosition at h1
  unfold isCtrlPosition at h2
  unfold isAltPosition at h3
  unfold isCodePosition at h4
  unfold Scanner.handleKeyRelease
  simp only [if_neg h1, if_neg h2, if_neg h3, if_neg h4]

/-! ## Modifier positions, the CODE position and the CODE combinations -/

/-- C2: at a shift, ctrl or alt position, whatever the flags were, `handleKeyPress` sets
the flag of that modifier and emits exactly one event, the key-down of the matrix key
(LeftShift, LeftCtrl, LeftAlt), and `handleKeyRelease` clears the flag and emits exactly
one event, the key-up of the same key. -/
theorem handleKey_modifier_position (s : Scanner) (row col : Nat) :
    (isShiftPosition row col →
      keyMatrixAt row col = uinput.KeyLeftshift ∧
      (s.handleKeyPress row col).shift = true ∧
      (s.handleKeyPress row col).events = s.events ++ [KbEvent.keyDown (keyMatrixAt row col)] ∧
      (s.handleKeyRelease row col).shift = false ∧
      (s.handleKeyRelease row col).events =
        s.events ++ [KbEvent.keyUp (keyMatrixAt row col)]) ∧
    (isCtrlPosition row col →
      keyMatrixAt row col = uinput.KeyLeftctrl ∧
      (s.handleKeyPress row col).ctrl = true ∧
      (s.handleKeyPress row col).events = s.events ++ [KbEvent.keyDown (keyMatrixAt row col)] ∧
      (s.handleKeyRelease row col).ctrl = false ∧
      (s.handleKeyRelease row col).events =
        s.events ++ [KbEvent.keyUp (keyMatrixAt row col)]) ∧
    (isAltPosition row col →
      keyMatrixAt row col = uinput.KeyLeftalt ∧
      (s.handleKeyPress row col).alt = true ∧
      (s.handleKeyPress row col).events = s.events ++ [KbEvent.keyDown (keyMatrixAt row col)] ∧
      (s.handleKeyRelease row col).alt = false ∧
      (s.handleKeyRelease row col).events =
        s.events ++ [KbEvent.keyUp (keyMatrixAt row col)]) := by
  refine ⟨fun h => ?_, fun h => ?_, fun h => ?_⟩
  · rw [handleKeyPress_shiftPos s row col h, handleKeyRelease_shiftPos s row col h]
    exact ⟨keyMatrixAt_shift row col h, rfl, Device.KeyDown_events _ _, rfl,
      Device.KeyUp_events _ _⟩
  · rw [handleKeyPress_ctrlPos s row col h, handleKeyRelease_ctrlPos s row col h]
    exact ⟨keyMatrixAt_ctrl row col h, rfl, Device.KeyDown_events _ _, rfl,
      Device.KeyUp_events _ _⟩
  · rw [handleKeyPress_altPos s row col h, handleKeyRelease_altPos s row col h]
    exact ⟨keyMatrixAt_alt row col h, rfl, Device.KeyDown_events _ _, rfl,
      Device.KeyUp_events _ _⟩

/-- C2, witness: a press and a release of the shift position (4,8) on a new scanner. -/
theorem handleKey_modifier_position_witness :
    isShiftPosition 4 8 ∧
      ((newScanner { kb := { events := [], faults := [] } }).handleKeyPress 4 8).shift
        = true ∧
      ((newScanner { kb := { events := [], faults := [] } }).handleKeyPress 4 8).events
        = [KbEvent.keyDown uinput.KeyLeftshift] ∧
      ((newScanner { kb := { events := [], faults := [] } }).handleKeyRelease 4 8).events
        = [KbEvent.keyUp uinput.KeyLeftshift] :=
  have h := (handleKey_modifier_position
    (newScanner { kb := { events := [], faults := [] } }) 4 8).1 (by decide)
  ⟨by decide, h.2.1, h.2.2.1, h.2.2.2.2⟩

/-- A press of a regular position: the code combination is tried when the code flag is
set, the matrix key is emitted when it is not set or no combination matched, and the code
flag is cleared on both ways out. -/
theorem handleKeyPress_regular (s : Scanner) (row col : Nat)
    (hpos : isRegularPosition row col) :
    s.handleKeyPress row col =
      if s.code = true ∧
          ({ s with dispatched := s.dispatched ++ [HandlerCall.press row col] }.handleCodeKey
            row col).1 = true then
        { ({ s with dispatched := s.dispatched ++ [HandlerCall.press row col] }.handleCodeKey
            row col).2 with code := false }
      else
        { ({ s with dispatched := s.dispatched ++ [HandlerCall.press row col] }.emitKey
            (keyMatrixAt row col)).2 with code := false } := by
  unfold Scanner.handleKeyPress
  simp only [handleModifier_regular _ row col hpos, Bool.false_eq_true, if_false,
    if_neg (inGrid_bounds row col hpos.1 hpos.2.1)]
  obtain ⟨dev, rw, ks, sh, ct, al, cd, disp⟩ := s
  cases cd
  · simp only [Bool.false_eq_true, if_false, false_and]
  · simp only [if_true, true_and]
    split_ifs with hm
    · rfl
    · have hu := handleCodeKeyLoop_unmatched row col CodeKeys _
        (by simpa [Scanner.handleCodeKey] using hm)
      rw [Scanner.handleCodeKey, hu]

/-- C3: the code flag is true after a press of the CODE position, and false after a press
of any regular in-grid position, whatever the flags were before and whether or not the
position has an entry in `CodeKeys`. -/
theorem code_flag_after_press (s : Scanner) :
    (s.handleKeyPress CodeRow CodeCol).code = true ∧
      ∀ row col, isRegularPosition row col → (s.handleKeyPress row col).code = false := by
  constructor
  · rw [handleKeyPress_codePos s CodeRow CodeCol ⟨rfl, rfl⟩]
  · intro row col hpos
    rw [handleKeyPress_regular s row col hpos]
    split_ifs <;> rfl

/-- C3, witness: armed by a press of the CODE position, the flag is false again after a
press of (6,5), which has a code combination, and after a press of (0,1), which has
none. -/
theorem code_flag_after_press_witness :
    ((newScanner { kb := { events := [], faults := [] } }).handleKeyPress 3 8).code = true ∧
      (((newScanner { kb := { events := [], faults := [] } }).handleKeyPress 3 8).handleKeyPress
        6 5).code = false ∧
      (((newScanner { kb := { events := [], faults := [] } }).handleKeyPress 3 8).handleKeyPress
        0 1).code = false :=
  ⟨(code_flag_after_press (newScanner { kb := { events := [], faults := [] } })).1,
    (code_flag_after_press
      ((newScanner { kb := { events := [], faults := [] } }).handleKeyPress 3 8)).2 6 5
      (by decide),
    (code_flag_after_press
      ((newScanner { kb := { events := [], faults := [] } }).handleKeyPress 3 8)).2 0 1
      (by decide)⟩

theorem codeKeys_regular (ck : CodeKey) (hck : ck ∈ CodeKeys) :
    isRegularPosition ck.Row ck.Col := by
  simp only [CodeKeys, List.mem_cons, List.mem_singleton, List.not_mem_nil, or_false] at hck
  rcases hck with rfl | rfl <;> decide

/-- On a position of `CodeKeys`, `handleCodeKey` reports a match and emits one press of the
key of that entry. -/
theorem handleCodeKey_listed (s : Scanner) (ck : CodeKey) (hck : ck ∈ CodeKeys) :
    (s.handleCodeKey ck.Row ck.Col).1 = true ∧
      (s.handleCodeKey ck.Row ck.Col).2.events = s.events ++ [KbEvent.keyPress ck.Key] := by
  simp only [CodeKeys, List.mem_cons, List.mem_singleton, List.not_mem_nil, or_false] at hck
  rcases hck with rfl | rfl
  · exact ⟨rfl, Device.EmitKey_events _ _⟩
  · exact ⟨rfl, Device.EmitKey_events _ _⟩

/-- C4: with the code flag set, a press at a position listed in `CodeKeys` emits exactly one
press of the key of that entry, whatever shift, ctrl and alt are; that key differs from
the matrix key of the position, which is therefore not emitted. -/
theorem handleKeyPress_code_combo (s : Scanner) (ck : CodeKey) (hck : ck ∈ CodeKeys)
    (hcode : s.code = true) :
    (s.handleKeyPress ck.Row ck.Col).events = s.events ++ [KbEvent.keyPress ck.Key] ∧
      ck.Key ≠ keyMatrixAt ck.Row ck.Col := by
  constructor
  · rw [handleKeyPress_regular s ck.Row ck.Col (codeKeys_regular ck hck)]
    have h := handleCodeKey_listed
      { s with dispatched := s.dispatched ++ [HandlerCall.press ck.Row ck.Col] } ck hck
    rw [if_pos ⟨hcode, h.1⟩]
    exact h.2
  · simp only [CodeKeys, List.mem_cons, List.mem_singleton, List.not_mem_nil, or_false] at hck
    rcases hck with rfl | rfl <;> decide

/-- C4, witnesses: with the code flag and all of shift, ctrl and alt set, (6,5) emits
PageUp and not Space, and (7,5) emits PageDown and not Delete. -/
theorem handleKeyPress_code_combo_witness :
    (({ newScanner { kb := { events := [], faults := [] } } with
          code := true, shift := true, ctrl := true, alt := true }.handleKeyPress 6 5).events
        = [KbEvent.keyPress uinput.KeyPageup] ∧
      uinput.KeyPageup ≠ uinput.KeySpace) ∧
    (({ newScanner { kb := { events := [], faults := [] } } with
          code := true, shift := true, ctrl := true, alt := true }.handleKeyPress 7 5).events
        = [KbEvent.keyPress uinput.KeyPagedown] ∧
      uinput.KeyPagedown ≠ uinput.KeyDelete) :=
  ⟨handleKeyPress_code_combo
      { newScanner { kb := { events := [], faults := [] } } with
        code := true, shift := true, ctrl := true, alt := true }
      { Row := 6, Col := 5, Key := uinput.KeyPageup } (by decide) rfl,
    handleKeyPress_code_combo
      { newScanner { kb := { events := [], faults := [] } } with
        code := true, shift := true, ctrl := true, alt := true }
      { Row := 7, Col := 5, Key := uinput.KeyPagedown } (by decide) rfl⟩

/-- When no entry matches, the loop of `handleCodeKey` reports no match. -/
theorem handleCodeKeyLoop_unlisted (row col : Nat) (l : List CodeKey) (s : Scanner)
    (h : ∀ ck ∈ l, ¬ (ck.Row = row ∧ ck.Col = col)) :
    handleCodeKeyLoop row col l s = (false, s) := by
  induction l with
  | nil => rfl
  | cons ck rest ih =>
    unfold handleCodeKeyLoop
    rw [if_neg (h ck (List.mem_cons_self _ _))]
    exact ih (fun ck' hck' => h ck' (List.mem_cons_of_mem _ hck'))

/-- The device calls of `emitKey` do not depend on the code flag. -/
theorem emitKey_code_irrelevant (s : Scanner) (b : Bool) (key : Int) :
    ({ s with code := b }.emitKey key).2.device = (s.emitKey key).2.device := by
  unfold Scanner.emitKey
  split_ifs <;> rfl

/-- C5: a press at a regular position that matches no entry of `CodeKeys` emits, with
the code flag set, the same events as with the code flag false and the same shift, ctrl and
alt, and ends in the same state: the matrix key is not suppressed. -/
theorem handleKeyPress_code_unmatched (s : Scanner) (row col : Nat)
    (hpos : isRegularPosition row col)
    (hno : ∀ ck ∈ CodeKeys, ¬ (ck.Row = row ∧ ck.Col = col)) :
    ({ s with code := true }.handleKeyPress row col).events =
        ({ s with code := false }.handleKeyPress row col).events ∧
      { s with code := true }.handleKeyPress row col =
        { s with code := false }.handleKeyPress row col := by
  have key : { s with code := true }.handleKeyPress row col =
      { s with code := false }.handleKeyPress row col := by
    rw [handleKeyPress_regular { s with code := true } row col hpos,
      handleKeyPress_regular { s with code := false } row col hpos]
    have hl := handleCodeKeyLoop_unlisted row col CodeKeys
      { s with code := true, dispatched := s.dispatched ++ [HandlerCall.press row col] } hno
    rw [if_neg (by rw [Scanner.handleCodeKey, hl]; simp), if_neg (by simp)]
    rw [emitKey_frame, emitKey_frame ({ s with code := false, dispatched := _ })]
    have h1 := emitKey_code_irrelevant
      { s with dispatched := s.dispatched ++ [HandlerCall.press row col] } true
      (keyMatrixAt row col)
    have h2 := emitKey_code_irrelevant
      { s with dispatched := s.dispatched ++ [HandlerCall.press row col] } false
      (keyMatrixAt row col)
    simp only at h1 h2 ⊢
    rw [h1, h2]
  exact ⟨by rw [key], key⟩

/-- C5, witness: with shift held, a press of (0,1), which is not in `CodeKeys`, emits the
shift combination of KeyA when the code flag is set, as it does when it is not. -/
theorem handleKeyPress_code_unmatched_witness :
    ({ newScanner { kb := { events := [], faults := [] } } with
          shift := true, code := true }.handleKeyPress 0 1).events =
      [KbEvent.keyDown uinput.KeyLeftshift, KbEvent.keyPress uinput.KeyA,
        KbEvent.keyUp uinput.KeyLeftshift] :=
  (handleKeyPress_code_unmatched
    { newScanner { kb := { events := [], faults := [] } } with shift := true }
    0 1 (by decide) (by decide)).1.trans (by decide)

/-- C10: the CODE position (3,8) never produces a key event. Whatever the flags are,
`handleKeyPress` there emits nothing and sets the code flag, `handleKeyRelease` there emits
nothing and clears the code flag, and both leave shift, ctrl, alt and the recorded key
states as they are, although `KeyMatrix[3][8]` holds the LeftShift key code. -/
theorem code_position_silent (s : Scanner) :
    keyMatrixAt CodeRow CodeCol = uinput.KeyLeftshift ∧
      ((s.handleKeyPress CodeRow CodeCol).events = s.events ∧
        (s.handleKeyPress CodeRow CodeCol).code = true ∧
        (s.handleKeyPress CodeRow CodeCol).shift = s.shift ∧
        (s.handleKeyPress CodeRow CodeCol).ctrl = s.ctrl ∧
        (s.handleKeyPress CodeRow CodeCol).alt = s.alt ∧
        (s.handleKeyPress CodeRow CodeCol).keyStates = s.keyStates) ∧
      ((s.handleKeyRelease CodeRow CodeCol).events = s.events ∧
        (s.handleKeyRelease CodeRow CodeCol).code = false ∧
        (s.handleKeyRelease CodeRow CodeCol).shift = s.shift ∧
        (s.handleKeyRelease CodeRow CodeCol).ctrl = s.ctrl ∧
        (s.handleKeyRelease CodeRow CodeCol).alt = s.alt ∧
        (s.handleKeyRelease CodeRow CodeCol).keyStates = s.keyStates) := by
  rw [handleKeyPress_codePos s CodeRow CodeCol ⟨rfl, rfl⟩,
    handleKeyRelease_codePos s CodeRow CodeCol ⟨rfl, rfl⟩]
  exact ⟨rfl, ⟨rfl, rfl, rfl, rfl, rfl, rfl⟩, ⟨rfl, rfl, rfl, rfl, rfl, rfl⟩⟩

/-! ## What the handlers leave alone -/

theorem handleCodeKey_fields (s : Scanner) (row col : Nat) :
    (s.handleCodeKey row col).2.keyStates = s.keyStates ∧
      (s.handleCodeKey row col).2.rowWrites = s.rowWrites ∧
      (s.handleCodeKey row col).2.dispatched = s.dispatched ∧
      (s.handleCodeKey row col).2.shift = s.shift ∧
      (s.handleCodeKey row col).2.ctrl = s.ctrl ∧
      (s.handleCodeKey row col).2.alt = s.alt := by
  unfold Scanner.handleCodeKey
  rw [handleCodeKeyLoop_frame]
  exact ⟨rfl, rfl, rfl, rfl, rfl, rfl⟩

theorem emitKey_fields (s : Scanner) (key : Int) :
    (s.emitKey key).2.keyStates = s.keyStates ∧
      (s.emitKey key).2.rowWrites = s.rowWrites ∧
      (s.emitKey key).2.dispatched = s.dispatched ∧
      (s.emitKey key).2.shift = s.shift ∧
      (s.emitKey key).2.ctrl = s.ctrl ∧
      (s.emitKey key).2.alt = s.alt := by
  rw [emitKey_frame]
  exact ⟨rfl, rfl, rfl, rfl, rfl, rfl⟩

theorem handleModifier_other (s : Scanner) (row col : Nat)
    (h1 : ¬ isShiftPosition row col) (h2 : ¬ isCtrlPosition row col)
    (h3 : ¬ isAltPosition row col) (h4 : ¬ isCodePosition row col) :
    s.handleModifier row col = (false, s) := by
  unfold isShiftPosition at h1
  unfold isCtrlPosition at h2
  unfold isAltPosition at h3
  unfold isCodePosition at h4
  unfold Scanner.handleModifier
  rw [if_neg h1, if_neg h2, if_neg h3, if_neg h4]

/-- A press at a position that is none of the four special kinds, in the grid or not. -/
theorem handleKeyPress_other (s : Scanner) (row col : Nat)
    (h1 : ¬ isShiftPosition row col) (h2 : ¬ isCtrlPosition row col)
    (h3 : ¬ isAltPosition row col) (h4 : ¬ isCodePosition row col) :
    s.handleKeyPress row col =
      if s.code = true ∧
          ({ s with dispatched := s.dispatched ++ [HandlerCall.press row col] }.handleCodeKey
            row col).1 = true then
        { ({ s with dispatched := s.dispatched ++ [HandlerCall.press row col] }.handleCodeKey
            row col).2 with code := false }
      else if row ≥ KeyMatrix.length ∨ col ≥ (keyMatrixRow row).length then
        { s with dispatched := s.dispatched ++ [HandlerCall.press row col] }
      else
        { ({ s with dispatched := s.dispatched ++ [HandlerCall.press row col] }.emitKey
            (keyMatrixAt row col)).2 with code := false } := by
  unfold Scanner.handleKeyPress
  simp only [handleModifier_other _ row col h1 h2 h3 h4, Bool.false_eq_true, if_false]
  obtain ⟨dev, rw, ks, sh, ct, al, cd, disp⟩ := s
  cases cd
  · simp only [Bool.false_eq_true, if_false, false_and]
  · simp only [if_true, true_and]
    split_ifs with hm hb
    · rfl
    · have hu := handleCodeKeyLoop_unmatched row col CodeKeys _
        (by simpa [Scanner.handleCodeKey] using hm)
      rw [Scanner.handleCodeKey, hu]
    · have hu := handleCodeKeyLoop_unmatched row col CodeKeys _
        (by simpa [Scanner.handleCodeKey] using hm)
      rw [Scanner.handleCodeKey, hu]

/-- The press handler leaves the recorded key states and the row writes alone, enters
itself once in the history of handler calls, and clears none of shift, ctrl and alt. -/
theorem handleKeyPress_frame (s : Scanner) (row col : Nat) :
    (s.handleKeyPress row col).keyStates = s.keyStates ∧
      (s.handleKeyPress row col).rowWrites = s.rowWrites ∧
      (s.handleKeyPress row col).dispatched = s.dispatched ++ [HandlerCall.press row col] ∧
      (s.shift = true → (s.handleKeyPress row col).shift = true) ∧
      (s.ctrl = true → (s.handleKeyPress row col).ctrl = true) ∧
      (s.alt = true → (s.handleKeyPress row col).alt = true) := by
  by_cases h1 : isShiftPosition row col
  · rw [handleKeyPress_shiftPos s row col h1]
    exact ⟨rfl, rfl, rfl, fun _ => rfl, id, id⟩
  by_cases h2 : isCtrlPosition row col
  · rw [handleKeyPress_ctrlPos s row col h2]
    exact ⟨rfl, rfl, rfl, id, fun _ => rfl, id⟩
  by_cases h3 : isAltPosition row col
  · rw [handleKeyPress_altPos s row col h3]
    exact ⟨rfl, rfl, rfl, id, id, fun _ => rfl⟩
  by_cases h4 : isCodePosition row col
  · rw [handleKeyPress_codePos s row col h4]
    exact ⟨rfl, rfl, rfl, id, id, id⟩
  rw [handleKeyPress_other s row col h1 h2 h3 h4]
  obtain ⟨c1, c2, c3, c4, c5, c6⟩ := handleCodeKey_fields
    { s with dispatched := s.dispatched ++ [HandlerCall.press row col] } row col
  obtain ⟨e1, e2, e3, e4, e5, e6⟩ := emitKey_fields
    { s with dispatched := s.dispatched ++ [HandlerCall.press row col] } (keyMatrixAt row col)
  split_ifs
  · exact ⟨c1, c2, c3, fun h => c4.trans h, fun h => c5.trans h, fun h => c6.trans h⟩
  · exact ⟨rfl, rfl, rfl, id, id, id⟩
  · exact ⟨e1, e2, e3, fun h => e4.trans h, fun h => e5.trans h, fun h => e6.trans h⟩

/-- The release handler leaves the recorded key states and the row writes alone and enters
itself once in the history of handler calls. -/
theorem handleKeyRelease_frame (s : Scanner) (row col : Nat) :
    (s.handleKeyRelease row col).keyStates = s.keyStates ∧
      (s.handleKeyRelease row col).rowWrites = s.rowWrites ∧
      (s.handleKeyRelease row col).dispatched =
        s.dispatched ++ [HandlerCall.release row col] := by
  unfold Scanner.handleKeyRelease
  split_ifs <;> exact ⟨rfl, rfl, rfl⟩

/-- The release handler clears shift only at a shift position, ctrl only at the ctrl
position and alt only at the alt position. -/
theorem handleKeyRelease_flags (s : Scanner) (row col : Nat) :
    (¬ isShiftPosition row col → (s.handleKeyRelease row col).shift = s.shift) ∧
      (¬ isCtrlPosition row col → (s.handleKeyRelease row col).ctrl = s.ctrl) ∧
      (¬ isAltPosition row col → (s.handleKeyRelease row col).alt = s.alt) := by
  unfold isShiftPosition isCtrlPosition isAltPosition
  unfold Scanner.handleKeyRelease
  refine ⟨fun h => ?_, fun h => ?_, fun h => ?_⟩
  · rw [if_neg h]; split_ifs <;> rfl
  · split_ifs <;> rfl
  · split_ifs <;> rfl

/-! ## Edge detection in the column loop -/

theorem setKeyState_same (s : Scanner) (id : Nat × Nat) (st : KeyState) :
    (s.setKeyState id st).keyStates id = some st := by
  simp [Scanner.setKeyState]

theorem setKeyState_other (s : Scanner) (id k : Nat × Nat) (st : KeyState) (h : k ≠ id) :
    (s.setKeyState id st).keyStates k = s.keyStates k := by
  simp [Scanner.setKeyState, h]

/-- The press branch of the column loop: the pre-scanned modifiers are latched, the
position is recorded pressed and `handleKeyPress` runs. -/
theorem scanColumn_press (s : Scanner) (hasShift hasCtrl hasAlt : Bool) (row col : Nat)
    (h : ∀ st, s.keyStates (keyID row col) = some st → st.Pressed = false) :
    s.scanColumn hasShift hasCtrl hasAlt row col 1 =
      ({ s with
          shift := s.shift || hasShift
          ctrl := s.ctrl || hasCtrl
          alt := s.alt || hasAlt }.setKeyState (keyID row col)
        { Pressed := true }).handleKeyPress row col := by
  unfold Scanner.scanColumn
  dsimp only
  cases hk : s.keyStates (keyID row col) with
  | none =>
    simp only [true_and, if_true]
    cases hasShift <;> cases hasCtrl <;> cases hasAlt <;>
      simp only [Bool.or_false, Bool.or_true, if_true, if_false, Bool.false_eq_true] <;>
      congr 1 <;> simp only [Scanner.setKeyState] <;> congr 1 <;> funext k <;>
      split_ifs <;> rfl
  | some st =>
    have hp := h st hk
    simp only [hp, true_and, if_true]
    cases hasShift <;> cases hasCtrl <;> cases hasAlt <;>
      simp only [Bool.or_false, Bool.or_true, if_true, if_false, Bool.false_eq_true]

/-- The release branch of the column loop. -/
theorem scanColumn_release (s : Scanner) (hasShift hasCtrl hasAlt : Bool) (row col : Nat)
    (st : KeyState) (hst : s.keyStates (keyID row col) = some st) (hp : st.Pressed = true) :
    s.scanColumn hasShift hasCtrl hasAlt row col 0 =
      (s.setKeyState (keyID row col) { Pressed := false }).handleKeyRelease row col := by
  unfold Scanner.scanColumn
  dsimp only
  simp only [hst, hp, Bool.true_eq_false, and_false, if_false, and_self, if_true, zero_ne_one,
    false_and]

/-- The last branch of the column loop on a position that has an entry: no state change. -/
theorem scanColumn_idle (s : Scanner) (hasShift hasCtrl hasAlt : Bool) (row col : Nat)
    (value : Int) (st : KeyState) (hst : s.keyStates (keyID row col) = some st)
    (h1 : ¬ (value = 1 ∧ st.Pressed = false)) (h0 : ¬ (value = 0 ∧ st.Pressed = true)) :
    s.scanColumn hasShift hasCtrl hasAlt row col value = s := by
  unfold Scanner.scanColumn
  dsimp only
  simp only [hst, if_neg h1, if_neg h0]

/-- The last branch of the column loop on a position that has no entry yet: the entry is
created not pressed and nothing else happens. -/
theorem scanColumn_first_idle (s : Scanner) (hasShift hasCtrl hasAlt : Bool) (row col : Nat)
    (value : Int) (hk : s.keyStates (keyID row col) = none) (hv : value ≠ 1) :
    s.scanColumn hasShift hasCtrl hasAlt row col value =
      s.setKeyState (keyID row col) { Pressed := false } := by
  unfold Scanner.scanColumn
  dsimp only
  simp only [hk, hv, false_and, if_false, Bool.false_eq_true, and_false]

/-- C6: one iteration of the column loop of `scanMatrix` at a position with a recorded
state, over the four combinations of that state with a sampled level in {0,1}. Recorded not pressed and level 1: exactly one press
dispatch for the position (the state is the result of `handleKeyPress` there, and the
handler history grows by that one call) and the position is recorded pressed. Recorded
pressed and level 0: exactly one release dispatch and the position is recorded not
pressed. Level equal to the recorded state: the scanner state is unchanged, so no handler
is dispatched and nothing is emitted. -/
theorem scanColumn_edges (s : Scanner) (hasShift hasCtrl hasAlt : Bool) (row col : Nat)
    (value : Int) (st : KeyState) (hst : s.keyStates (keyID row col) = some st) :
    (st.Pressed = false ∧ value = 1 →
      s.scanColumn hasShift hasCtrl hasAlt row col value =
        ({ s with
            shift := s.shift || hasShift
            ctrl := s.ctrl || hasCtrl
            alt := s.alt || hasAlt }.setKeyState (keyID row col)
          { Pressed := true }).handleKeyPress row col ∧
      (s.scanColumn hasShift hasCtrl hasAlt row col value).dispatched =
        s.dispatched ++ [HandlerCall.press row col] ∧
      (s.scanColumn hasShift hasCtrl hasAlt row col value).keyStates (keyID row col) =
        some { Pressed := true }) ∧
    (st.Pressed = true ∧ value = 0 →
      s.scanColumn hasShift hasCtrl hasAlt row col value =
        (s.setKeyState (keyID row col) { Pressed := false }).handleKeyRelease row col ∧
      (s.scanColumn hasShift hasCtrl hasAlt row col value).dispatched =
        s.dispatched ++ [HandlerCall.release row col] ∧
      (s.scanColumn hasShift hasCtrl hasAlt row col value).keyStates (keyID row col) =
        some { Pressed := false }) ∧
    ((st.Pressed = false ∧ value = 0) ∨ (st.Pressed = true ∧ value = 1) →
      s.scanColumn hasShift hasCtrl hasAlt row col value = s) := by
  refine ⟨?_, ?_, ?_⟩
  · rintro ⟨hp, rfl⟩
    have hs := scanColumn_press s hasShift hasCtrl hasAlt row col
      (fun st' h' => by rw [hst] at h'; cases h'; exact hp)
    obtain ⟨f1, _, f3, _⟩ := handleKeyPress_frame
      ({ s with
          shift := s.shift || hasShift
          ctrl := s.ctrl || hasCtrl
          alt := s.alt || hasAlt }.setKeyState (keyID row col) { Pressed := true }) row col
    refine ⟨hs, ?_, ?_⟩
    · rw [hs, f3]; rfl
    · rw [hs, f1]; exact setKeyState_same _ _ _
  · rintro ⟨hp, rfl⟩
    have hs := scanColumn_release s hasShift hasCtrl hasAlt row col st hst hp
    obtain ⟨f1, _, f3⟩ := handleKeyRelease_frame
      (s.setKeyState (keyID row col) { Pressed := false }) row col
    refine ⟨hs, ?_, ?_⟩
    · rw [hs, f3]; rfl
    · rw [hs, f1]; exact setKeyState_same _ _ _
  · intro h
    apply scanColumn_idle s hasShift hasCtrl hasAlt row col value st hst
    · rcases h with ⟨hp, rfl⟩ | ⟨hp, rfl⟩
      · simp
      · simp [hp]
    · rcases h with ⟨hp, rfl⟩ | ⟨hp, rfl⟩
      · simp [hp]
      · simp

/-- C6, witness: (0,1) recorded not pressed and sampled high, then sampled high again,
then sampled low: one press call, nothing, one release call. -/
theorem scanColumn_edges_witness :
    (((newScanner { kb := { events := [], faults := [] } }).setKeyState (keyID 0 1)
        { Pressed := false }).scanColumn false false false 0 1 1).dispatched =
      [HandlerCall.press 0 1] ∧
    ((((newScanner { kb := { events := [], faults := [] } }).setKeyState (keyID 0 1)
        { Pressed := false }).scanColumn false false false 0 1 1).scanColumn
          false false false 0 1 1).dispatched = [HandlerCall.press 0 1] ∧
    ((((newScanner { kb := { events := [], faults := [] } }).setKeyState (keyID 0 1)
        { Pressed := false }).scanColumn false false false 0 1 1).scanColumn
          false false false 0 1 0).dispatched =
      [HandlerCall.press 0 1, HandlerCall.release 0 1] :=
  ⟨((scanColumn_edges ((newScanner { kb := { events := [], faults := [] } }).setKeyState
        (keyID 0 1) { Pressed := false }) false false false 0 1 1 { Pressed := false }
        (by decide)).1 ⟨rfl, rfl⟩).2.1,
    congrArg Scanner.dispatched
      ((scanColumn_edges (((newScanner { kb := { events := [], faults := [] } }).setKeyState
        (keyID 0 1) { Pressed := false }).scanColumn false false false 0 1 1)
        false false false 0 1 1 { Pressed := true }
        (by decide)).2.2 (Or.inr ⟨rfl, rfl⟩)),
    ((scanColumn_edges (((newScanner { kb := { events := [], faults := [] } }).setKeyState
        (keyID 0 1) { Pressed := false }).scanColumn false false false 0 1 1)
        false false false 0 1 0 { Pressed := true }
        (by decide)).2.1 ⟨rfl, rfl⟩).2.1⟩

/-- C7: a position with no entry in `keyStates` is compared against a not-pressed
baseline. A first level of 0 produces no transition: only the entry is created, not
pressed. A first level of 1 produces one press dispatch. In both cases the entry exists
afterwards and holds the sampled level. -/
theorem scanColumn_first_observation (s : Scanner) (hasShift hasCtrl hasAlt : Bool)
    (row col : Nat) (hk : s.keyStates (keyID row col) = none) :
    (s.scanColumn hasShift hasCtrl hasAlt row col 0 =
        s.setKeyState (keyID row col) { Pressed := false } ∧
      (s.scanColumn hasShift hasCtrl hasAlt row col 0).dispatched = s.dispatched ∧
      (s.scanColumn hasShift hasCtrl hasAlt row col 0).events = s.events ∧
      (s.scanColumn hasShift hasCtrl hasAlt row col 0).keyStates (keyID row col) =
        some { Pressed := false }) ∧
    (s.scanColumn hasShift hasCtrl hasAlt row col 1 =
        ({ s with
            shift := s.shift || hasShift
            ctrl := s.ctrl || hasCtrl
            alt := s.alt || hasAlt }.setKeyState (keyID row col)
          { Pressed := true }).handleKeyPress row col ∧
      (s.scanColumn hasShift hasCtrl hasAlt row col 1).dispatched =
        s.dispatched ++ [HandlerCall.press row col] ∧
      (s.scanColumn hasShift hasCtrl hasAlt row col 1).keyStates (keyID row col) =
        some { Pressed := true }) := by
  constructor
  · rw [scanColumn_first_idle s hasShift hasCtrl hasAlt row col 0 hk (by decide)]
    exact ⟨rfl, rfl, rfl, setKeyState_same _ _ _⟩
  · have hs := scanColumn_press s hasShift hasCtrl hasAlt row col
      (fun st' h' => by rw [hk] at h'; cases h')
    obtain ⟨f1, _, f3, _⟩ := handleKeyPress_frame
      ({ s with
          shift := s.shift || hasShift
          ctrl := s.ctrl || hasCtrl
          alt := s.alt || hasAlt }.setKeyState (keyID row col) { Pressed := true }) row col
    refine ⟨hs, ?_, ?_⟩
    · rw [hs, f3]; rfl
    · rw [hs, f1]; exact setKeyState_same _ _ _

/-- C7, witness: on a new scanner, whose table is empty, a first level of 0 at (0,1)
dispatches nothing and a first level of 1 dispatches one press. -/
theorem scanColumn_first_observation_witness :
    ((newScanner { kb := { events := [], faults := [] } }).scanColumn
        false false false 0 1 0).dispatched = [] ∧
      ((newScanner { kb := { events := [], faults := [] } }).scanColumn
        false false false 0 1 1).dispatched = [HandlerCall.press 0 1] :=
  ⟨(scanColumn_first_observation (newScanner { kb := { events := [], faults := [] } })
      false false false 0 1 rfl).1.2.1,
    (scanColumn_first_observation (newScanner { kb := { events := [], faults := [] } })
      false false false 0 1 rfl).2.2.1⟩

/-! ## The column loop as a whole -/

/-- One iteration of the column loop touches no recorded state but that of its own
position. -/
theorem scanColumn_keyStates_other (s : Scanner) (hasShift hasCtrl hasAlt : Bool)
    (row col : Nat) (value : Int) (k : Nat × Nat) (hk : k ≠ keyID row col) :
    (s.scanColumn hasShift hasCtrl hasAlt row col value).keyStates k = s.keyStates k := by
  unfold Scanner.scanColumn
  dsimp only
  cases hst : s.keyStates (keyID row col) <;> dsimp only <;> split_ifs <;>
    simp only [(handleKeyPress_frame _ _ _).1, (handleKeyRelease_frame _ _ _).1,
      setKeyState_other _ _ _ _ hk]

/-- One iteration of the column loop dispatches at most one handler call, for its own
position. -/
theorem scanColumn_dispatched (s : Scanner) (hasShift hasCtrl hasAlt : Bool)
    (row col : Nat) (value : Int) :
    ∃ calls, (s.scanColumn hasShift hasCtrl hasAlt row col value).dispatched =
        s.dispatched ++ calls ∧
      ∀ c ∈ calls, c = HandlerCall.press row col ∨ c = HandlerCall.release row col := by
  unfold Scanner.scanColumn
  dsimp only
  cases hst : s.keyStates (keyID row col) <;> dsimp only <;> split_ifs
  all_goals first
    | exact ⟨[HandlerCall.press row col], (handleKeyPress_frame _ _ _).2.2.1,
        fun c hc => Or.inl (List.mem_singleton.mp hc)⟩
    | exact ⟨[HandlerCall.release row col], (handleKeyRelease_frame _ _ _).2.2,
        fun c hc => Or.inr (List.mem_singleton.mp hc)⟩
    | exact ⟨[], (List.append_nil _).symm, fun c hc => absurd hc (List.not_mem_nil c)⟩

theorem scanColumns_append (hasShift hasCtrl hasAlt : Bool) (row : Nat) (i : Nat)
    (l1 l2 : List Int) (s : Scanner) :
    scanColumns hasShift hasCtrl hasAlt row i (l1 ++ l2) s =
      scanColumns hasShift hasCtrl hasAlt row (i + l1.length) l2
        (scanColumns hasShift hasCtrl hasAlt row i l1 s) := by
  induction l1 generalizing i s with
  | nil => rfl
  | cons v rest ih =>
    show scanColumns hasShift hasCtrl hasAlt row (i + 1) (rest ++ l2) _ = _
    rw [ih, List.length_cons, Nat.add_assoc, Nat.add_comm 1]
    rfl

/-- The column loop over the columns `i, i+1, ...` touches no recorded state of a column
before `i` or of another row. -/
theorem scanColumns_keyStates_other (hasShift hasCtrl hasAlt : Bool) (row : Nat) (i : Nat)
    (l : List Int) (s : Scanner) (r c : Nat) (h : r ≠ row ∨ c < i ∨ i + l.length ≤ c) :
    (scanColumns hasShift hasCtrl hasAlt row i l s).keyStates (keyID r c) =
      s.keyStates (keyID r c) := by
  induction l generalizing i s with
  | nil => rfl
  | cons v rest ih =>
    simp only [scanColumns]
    rw [ih (i + 1) _ (by simp only [List.length_cons] at h; omega)]
    apply scanColumn_keyStates_other
    simp only [keyID, ne_eq, Prod.mk.injEq, not_and]
    simp only [List.length_cons] at h
    omega

/-- The handler calls dispatched by the column loop over the columns `i, i+1, ...` are
calls for positions of these columns. -/
theorem scanColumns_dispatched (hasShift hasCtrl hasAlt : Bool) (row : Nat) (i : Nat)
    (l : List Int) (s : Scanner) :
    ∃ calls, (scanColumns hasShift hasCtrl hasAlt row i l s).dispatched =
        s.dispatched ++ calls ∧
      ∀ c ∈ calls, ∃ col, i ≤ col ∧ col < i + l.length ∧
        (c = HandlerCall.press row col ∨ c = HandlerCall.release row col) := by
  induction l generalizing i s with
  | nil => exact ⟨[], by simp [scanColumns], by simp⟩
  | cons v rest ih =>
    obtain ⟨c1, h1, h1'⟩ := scanColumn_dispatched s hasShift hasCtrl hasAlt row i v
    obtain ⟨c2, h2, h2'⟩ := ih (i + 1) (s.scanColumn hasShift hasCtrl hasAlt row i v)
    refine ⟨c1 ++ c2, ?_, ?_⟩
    · simp only [scanColumns]
      rw [h2, h1, List.append_assoc]
    · intro c hc
      rcases List.mem_append.mp hc with hc | hc
      · exact ⟨i, le_refl _, by simp only [List.length_cons]; omega, h1' c hc⟩
      · obtain ⟨col, hl, hu, hcol⟩ := h2' c hc
        exact ⟨col, by omega, by simp only [List.length_cons]; omega, hcol⟩

/-! ## The modifier pre-scan of a row -/

theorem readColumns_length (level : Nat → Int) : (readColumns level).length = 9 := by
  simp [readColumns, DefaultPinConfig]

theorem readColumns_getD (level : Nat → Int) (c : Nat) (hc : c < 9) :
    (readColumns level).getD c 0 = level c := by
  interval_cases c <;> rfl

theorem readColumns_take_succ (level : Nat → Int) (c : Nat) (hc : c < 9) :
    (readColumns level).take (c + 1) = (readColumns level).take c ++ [level c] := by
  interval_cases c <;> rfl

/-- A row scan whose column read succeeded is the column loop run to its end, followed by
the write that sets the row back to low. -/
theorem scanRow_eq_upTo (s : Scanner) (row : Nat) (level : Nat → Int) :
    s.scanRow row (some level) =
      (s.scanRowUpTo row level DefaultPinConfig.ColumnPins.length).setRow row 0 := by
  unfold Scanner.scanRow Scanner.scanRowUpTo
  dsimp only
  have hl : (readColumns level).length ≤ DefaultPinConfig.ColumnPins.length := by
    simp [readColumns]
  rw [List.take_of_length_le hl]

/-- The state after `c + 1` columns is one loop iteration, for column `c`, away from the
state after `c` columns. -/
theorem scanRowUpTo_succ (s : Scanner) (row : Nat) (level : Nat → Int) (c : Nat)
    (hc : c < 9) :
    s.scanRowUpTo row level (c + 1) =
      (s.scanRowUpTo row level c).scanColumn (rowHasShift row (readColumns level))
        (rowHasCtrl row (readColumns level)) (rowHasAlt row (readColumns level))
        row c (level c) := by
  unfold Scanner.scanRowUpTo
  dsimp only
  rw [readColumns_take_succ level c hc, scanColumns_append]
  have hl : ((readColumns level).take c).length = c := by
    rw [List.length_take, readColumns_length]; omega
  rw [hl, Nat.zero_add]
  rfl

theorem scanRowUpTo_keyStates (s : Scanner) (row : Nat) (level : Nat → Int) (n c : Nat)
    (h : n ≤ c) :
    (s.scanRowUpTo row level n).keyStates (keyID row c) = s.keyStates (keyID row c) := by
  unfold Scanner.scanRowUpTo
  dsimp only
  rw [scanColumns_keyStates_other]
  · rfl
  · right; right
    have := List.length_take_le n (readColumns level)
    omega

theorem scanRowUpTo_dispatched (s : Scanner) (row : Nat) (level : Nat → Int) (n : Nat) :
    ∃ calls, (s.scanRowUpTo row level n).dispatched = s.dispatched ++ calls ∧
      ∀ c ∈ calls, ∃ col, col < n ∧
        (c = HandlerCall.press row col ∨ c = HandlerCall.release row col) := by
  unfold Scanner.scanRowUpTo
  dsimp only
  obtain ⟨calls, h1, h2⟩ := scanColumns_dispatched (rowHasShift row (readColumns level))
    (rowHasCtrl row (readColumns level)) (rowHasAlt row (readColumns level)) row 0
    ((readColumns level).take n) (s.setRow row 1)
  refine ⟨calls, h1, fun c hc => ?_⟩
  obtain ⟨col, _, hu, hcol⟩ := h2 c hc
  have := List.length_take_le n (readColumns level)
  exact ⟨col, by omega, hcol⟩

/-- C8: in a row scan whose column 8 reads high, a key of columns 0..7 that reads high and
was not recorded pressed is dispatched to `handleKeyPress` from a state in which the press
of column 8 of that row has not been dispatched yet and in which the shift flag is already
true if the row is a shift row (0, 4, 5, 6), the ctrl flag if it is row 1, the alt flag if
it is row 2. -/
theorem scanRow_prescanned_modifiers (s : Scanner) (row : Nat) (level : Nat → Int)
    (col : Nat) (hcol : col < 8) (h8 : level 8 = 1) (hv : level col = 1)
    (hnp : ∀ st, s.keyStates (keyID row col) = some st → st.Pressed = false) :
    s.scanRow row (some level) =
        (s.scanRowUpTo row level DefaultPinConfig.ColumnPins.length).setRow row 0 ∧
      ∃ (s' : Scanner) (calls : List HandlerCall),
        s.scanRowUpTo row level (col + 1) = s'.handleKeyPress row col ∧
        s'.dispatched = s.dispatched ++ calls ∧
        HandlerCall.press row 8 ∉ calls ∧
        (isShiftPosition row 8 → s'.shift = true) ∧
        (isCtrlPosition row 8 → s'.ctrl = true) ∧
        (isAltPosition row 8 → s'.alt = true) := by
  refine ⟨scanRow_eq_upTo s row level, ?_⟩
  have hstep := scanRowUpTo_succ s row level col (by omega)
  rw [hv] at hstep
  have hks := scanRowUpTo_keyStates s row level col col (le_refl _)
  rw [scanColumn_press _ _ _ _ row col (fun st h => hnp st (by rw [← hks]; exact h))] at hstep
  obtain ⟨calls, hd, hcalls⟩ := scanRowUpTo_dispatched s row level col
  have hg : (readColumns level).getD 8 0 = 1 := by
    rw [readColumns_getD level 8 (by omega)]; exact h8
  refine ⟨_, calls, hstep, hd, ?_, ?_, ?_, ?_⟩
  · intro hmem
    obtain ⟨c, hc, h | h⟩ := hcalls _ hmem
    · injection h with _ h2; omega
    · cases h
  · rintro ⟨_, hrow⟩
    have : rowHasShift row (readColumns level) = true := by
      simp only [rowHasShift, ShiftCol, hg, true_and, decide_eq_true_eq]; exact hrow
    show ((s.scanRowUpTo row level col).shift || rowHasShift row (readColumns level)) = true
    rw [this, Bool.or_true]
  · rintro ⟨hrow, _⟩
    have : rowHasCtrl row (readColumns level) = true := by
      simp only [rowHasCtrl, CtrlCol, hg, and_true, decide_eq_true_eq]; exact hrow
    show ((s.scanRowUpTo row level col).ctrl || rowHasCtrl row (readColumns level)) = true
    rw [this, Bool.or_true]
  · rintro ⟨hrow, _⟩
    have : rowHasAlt row (readColumns level) = true := by
      simp only [rowHasAlt, AltCol, hg, and_true, decide_eq_true_eq]; exact hrow
    show ((s.scanRowUpTo row level col).alt || rowHasAlt row (readColumns level)) = true
    rw [this, Bool.or_true]

/-- C8, witness: on a new scanner, a scan of row 0 with columns 1 and 8 high dispatches
(0,1) with shift already true and before the press of (0,8); the row scan emits
[down LeftShift, press KeyA, up LeftShift] for (0,1) and then the key-down of LeftShift
for (0,8). -/
theorem scanRow_prescanned_modifiers_witness :
    (∃ (s' : Scanner) (calls : List HandlerCall),
      (newScanner { kb := { events := [], faults := [] } }).scanRowUpTo 0
          (fun c => if c = 1 ∨ c = 8 then 1 else 0) 2 = s'.handleKeyPress 0 1 ∧
        s'.dispatched = calls ∧ HandlerCall.press 0 8 ∉ calls ∧ s'.shift = true) ∧
      ((newScanner { kb := { events := [], faults := [] } }).scanRow 0
          (some (fun c => if c = 1 ∨ c = 8 then 1 else 0))).events =
        [KbEvent.keyDown uinput.KeyLeftshift, KbEvent.keyPress uinput.KeyA,
          KbEvent.keyUp uinput.KeyLeftshift, KbEvent.keyDown uinput.KeyLeftshift] ∧
      ((newScanner { kb := { events := [], faults := [] } }).scanRow 0
          (some (fun c => if c = 1 ∨ c = 8 then 1 else 0))).dispatched =
        [HandlerCall.press 0 1, HandlerCall.press 0 8] := by
  obtain ⟨s', calls, h1, h2, h3, h4, _⟩ :=
    (scanRow_prescanned_modifiers (newScanner { kb := { events := [], faults := [] } }) 0
      (fun c => if c = 1 ∨ c = 8 then 1 else 0) 1 (by decide) rfl rfl
      (fun st h => by simp [newScanner] at h)).2
  exact ⟨⟨s', calls, h1, by simpa [newScanner] using h2, h3, h4 (by decide)⟩,
    by decide, by decide⟩

/-! ## Modifier flags are cleared by their own release only -/

/-- The three ways through one iteration of the column loop. -/
theorem scanColumn_cases (s : Scanner) (hasShift hasCtrl hasAlt : Bool) (row col : Nat)
    (value : Int) :
    s.scanColumn hasShift hasCtrl hasAlt row col value =
        ({ s with
            shift := s.shift || hasShift
            ctrl := s.ctrl || hasCtrl
            alt := s.alt || hasAlt }.setKeyState (keyID row col)
          { Pressed := true }).handleKeyPress row col ∨
      (s.scanColumn hasShift hasCtrl hasAlt row col value =
          (s.setKeyState (keyID row col) { Pressed := false }).handleKeyRelease row col ∧
        value = 0 ∧ s.keyStates (keyID row col) = some { Pressed := true }) ∨
      s.scanColumn hasShift hasCtrl hasAlt row col value = s ∨
      s.scanColumn hasShift hasCtrl hasAlt row col value =
        s.setKeyState (keyID row col) { Pressed := false } := by
  cases hst : s.keyStates (keyID row col) with
  | none =>
    by_cases hv : value = 1
    · subst hv
      exact Or.inl (scanColumn_press s _ _ _ row col (fun st h => by rw [hst] at h; cases h))
    · exact Or.inr (Or.inr (Or.inr (scanColumn_first_idle s _ _ _ row col value hst hv)))
  | some st =>
    by_cases h1 : value = 1 ∧ st.Pressed = false
    · obtain ⟨rfl, hp⟩ := h1
      exact Or.inl (scanColumn_press s _ _ _ row col
        (fun st' h => by rw [hst] at h; cases h; exact hp))
    · by_cases h0 : value = 0 ∧ st.Pressed = true
      · obtain ⟨rfl, hp⟩ := h0
        refine Or.inr (Or.inl ⟨scanColumn_release s _ _ _ row col st hst hp, rfl, ?_⟩)
        cases st
        simp only at hp
        rw [hp]
      · exact Or.inr (Or.inr (Or.inl (scanColumn_idle s _ _ _ row col value st hst h1 h0)))

/-- One iteration of the column loop that clears shift, ctrl or alt is a release edge at a
position of that modifier. -/
theorem scanColumn_clears (s : Scanner) (hasShift hasCtrl hasAlt : Bool) (row col : Nat)
    (value : Int) :
    (s.shift = true → (s.scanColumn hasShift hasCtrl hasAlt row col value).shift = false →
      isShiftPosition row col ∧ value = 0 ∧
        s.keyStates (keyID row col) = some { Pressed := true }) ∧
    (s.ctrl = true → (s.scanColumn hasShift hasCtrl hasAlt row col value).ctrl = false →
      isCtrlPosition row col ∧ value = 0 ∧
        s.keyStates (keyID row col) = some { Pressed := true }) ∧
    (s.alt = true → (s.scanColumn hasShift hasCtrl hasAlt row col value).alt = false →
      isAltPosition row col ∧ value = 0 ∧
        s.keyStates (keyID row col) = some { Pressed := true }) := by
  obtain ⟨_, _, _, p1, p2, p3⟩ := handleKeyPress_frame
    ({ s with
        shift := s.shift || hasShift
        ctrl := s.ctrl || hasCtrl
        alt := s.alt || hasAlt }.setKeyState (keyID row col) { Pressed := true }) row col
  obtain ⟨r1, r2, r3⟩ := handleKeyRelease_flags
    (s.setKeyState (keyID row col) { Pressed := false }) row col
  rcases scanColumn_cases s hasShift hasCtrl hasAlt row col value with h | ⟨h, hv, hk⟩ | h | h
  · rw [h]
    refine ⟨fun hs hf => ?_, fun hs hf => ?_, fun hs hf => ?_⟩
    · rw [p1 (by show (s.shift || hasShift) = true; rw [hs]; rfl)] at hf; cases hf
    · rw [p2 (by show (s.ctrl || hasCtrl) = true; rw [hs]; rfl)] at hf; cases hf
    · rw [p3 (by show (s.alt || hasAlt) = true; rw [hs]; rfl)] at hf; cases hf
  · rw [h]
    refine ⟨fun hs hf => ⟨?_, hv, hk⟩, fun hs hf => ⟨?_, hv, hk⟩, fun hs hf => ⟨?_, hv, hk⟩⟩
    · by_contra hn
      rw [r1 hn] at hf
      exact absurd (hs.symm.trans hf) (by decide)
    · by_contra hn
      rw [r2 hn] at hf
      exact absurd (hs.symm.trans hf) (by decide)
    · by_contra hn
      rw [r3 hn] at hf
      exact absurd (hs.symm.trans hf) (by decide)
  · rw [h]
    refine ⟨fun hs hf => ?_, fun hs hf => ?_, fun hs hf => ?_⟩ <;>
      exact absurd (hs.symm.trans hf) (by decide)
  · rw [h]
    refine ⟨fun hs hf => ?_, fun hs hf => ?_, fun hs hf => ?_⟩ <;>
      exact absurd (hs.symm.trans hf) (by decide)

theorem ClearedOnlyByRelease.refl (flag : Scanner → Bool) (pos : Nat → Nat → Prop)
    (s : Scanner) : ClearedOnlyByRelease flag pos s s :=
  ⟨[], (List.append_nil _).symm, fun h => Or.inl h⟩

theorem ClearedOnlyByRelease.trans (flag : Scanner → Bool) (pos : Nat → Nat → Prop)
    (s t u : Scanner) (h1 : ClearedOnlyByRelease flag pos s t)
    (h2 : ClearedOnlyByRelease flag pos t u) : ClearedOnlyByRelease flag pos s u := by
  obtain ⟨c1, d1, k1⟩ := h1
  obtain ⟨c2, d2, k2⟩ := h2
  refine ⟨c1 ++ c2, by rw [d2, d1, List.append_assoc], fun hs => ?_⟩
  rcases k1 hs with ht | ⟨r, c, hp, hm⟩
  · rcases k2 ht with hu | ⟨r, c, hp, hm⟩
    · exact Or.inl hu
    · exact Or.inr ⟨r, c, hp, List.mem_append_right _ hm⟩
  · exact Or.inr ⟨r, c, hp, List.mem_append_left _ hm⟩

/-- One iteration of the column loop, seen through `ClearedOnlyByRelease`. -/
theorem scanColumn_cleared (s : Scanner) (hasShift hasCtrl hasAlt : Bool) (row col : Nat)
    (value : Int) :
    ClearedOnlyByRelease Scanner.shift isShiftPosition s
        (s.scanColumn hasShift hasCtrl hasAlt row col value) ∧
      ClearedOnlyByRelease Scanner.ctrl isCtrlPosition s
        (s.scanColumn hasShift hasCtrl hasAlt row col value) ∧
      ClearedOnlyByRelease Scanner.alt isAltPosition s
        (s.scanColumn hasShift hasCtrl hasAlt row col value) := by
  obtain ⟨calls, hd, _⟩ := scanColumn_dispatched s hasShift hasCtrl hasAlt row col value
  obtain ⟨k1, k2, k3⟩ := scanColumn_clears s hasShift hasCtrl hasAlt row col value
  have hrel : s.keyStates (keyID row col) = some { Pressed := true } → value = 0 →
      HandlerCall.release row col ∈ calls := by
    intro hk hv
    subst hv
    have h := scanColumn_release s hasShift hasCtrl hasAlt row col _ hk rfl
    rw [h, (handleKeyRelease_frame _ _ _).2.2] at hd
    have : calls = [HandlerCall.release row col] := (List.append_cancel_left hd).symm
    rw [this]
    exact List.mem_singleton.mpr rfl
  refine ⟨⟨calls, hd, fun hs => ?_⟩, ⟨calls, hd, fun hs => ?_⟩, ⟨calls, hd, fun hs => ?_⟩⟩
  · cases hf : (s.scanColumn hasShift hasCtrl hasAlt row col value).shift
    · obtain ⟨hp, hv, hk⟩ := k1 hs hf
      exact Or.inr ⟨row, col, hp, hrel hk hv⟩
    · exact Or.inl rfl
  · cases hf : (s.scanColumn hasShift hasCtrl hasAlt row col value).ctrl
    · obtain ⟨hp, hv, hk⟩ := k2 hs hf
      exact Or.inr ⟨row, col, hp, hrel hk hv⟩
    · exact Or.inl rfl
  · cases hf : (s.scanColumn hasShift hasCtrl hasAlt row col value).alt
    · obtain ⟨hp, hv, hk⟩ := k3 hs hf
      exact Or.inr ⟨row, col, hp, hrel hk hv⟩
    · exact Or.inl rfl

theorem setRow_cleared (flag : Scanner → Bool) (pos : Nat → Nat → Prop)
    (hrow : ∀ (s : Scanner) r v, flag (s.setRow r v) = flag s) (s : Scanner) (r : Nat)
    (v : Int) : ClearedOnlyByRelease flag pos s (s.setRow r v) :=
  ⟨[], (List.append_nil _).symm, fun h => Or.inl ((hrow s r v).trans h)⟩

theorem scanColumns_cleared (flag : Scanner → Bool) (pos : Nat → Nat → Prop)
    (hcol : ∀ (s : Scanner) a b c row col v,
      ClearedOnlyByRelease flag pos s (s.scanColumn a b c row col v))
    (a b c : Bool) (row i : Nat) (l : List Int) (s : Scanner) :
    ClearedOnlyByRelease flag pos s (scanColumns a b c row i l s) := by
  induction l generalizing i s with
  | nil => exact ClearedOnlyByRelease.refl flag pos s
  | cons v rest ih =>
    exact ClearedOnlyByRelease.trans flag pos _ _ _ (hcol s a b c row i v) (ih (i + 1) _)

theorem scanRow_cleared (flag : Scanner → Bool) (pos : Nat → Nat → Prop)
    (hcol : ∀ (s : Scanner) a b c row col v,
      ClearedOnlyByRelease flag pos s (s.scanColumn a b c row col v))
    (hrow : ∀ (s : Scanner) r v, flag (s.setRow r v) = flag s)
    (s : Scanner) (row : Nat) (read : Option (Nat → Int)) :
    ClearedOnlyByRelease flag pos s (s.scanRow row read) := by
  cases read with
  | none =>
    exact ClearedOnlyByRelease.trans flag pos _ _ _ (setRow_cleared flag pos hrow s row 1)
      (setRow_cleared flag pos hrow _ row 0)
  | some level =>
    exact ClearedOnlyByRelease.trans flag pos _ _ _ (setRow_cleared flag pos hrow s row 1)
      (ClearedOnlyByRelease.trans flag pos _ _ _
        (scanColumns_cleared flag pos hcol _ _ _ row 0 (readColumns level) _)
        (setRow_cleared flag pos hrow _ row 0))

theorem scanRows_cleared (flag : Scanner → Bool) (pos : Nat → Nat → Prop)
    (hcol : ∀ (s : Scanner) a b c row col v,
      ClearedOnlyByRelease flag pos s (s.scanColumn a b c row col v))
    (hrow : ∀ (s : Scanner) r v, flag (s.setRow r v) = flag s)
    (reads : Nat → Option (Nat → Int)) (rows : List Nat) (s : Scanner) :
    ClearedOnlyByRelease flag pos s (scanRows reads rows s) := by
  induction rows generalizing s with
  | nil => exact ClearedOnlyByRelease.refl flag pos s
  | cons r rest ih =>
    exact ClearedOnlyByRelease.trans flag pos _ _ _
      (scanRow_cleared flag pos hcol hrow s r (reads r)) (ih _)

theorem run_cleared (flag : Scanner → Bool) (pos : Nat → Nat → Prop)
    (hcol : ∀ (s : Scanner) a b c row col v,
      ClearedOnlyByRelease flag pos s (s.scanColumn a b c row col v))
    (hrow : ∀ (s : Scanner) r v, flag (s.setRow r v) = flag s)
    (sweeps : List (Nat → Option (Nat → Int))) (s : Scanner) :
    ClearedOnlyByRelease flag pos s (s.run sweeps) := by
  induction sweeps generalizing s with
  | nil => exact ClearedOnlyByRelease.refl flag pos s
  | cons reads rest ih =>
    exact ClearedOnlyByRelease.trans flag pos _ _ _
      (scanRows_cleared flag pos hcol hrow reads _ s) (ih _)

/-- C9: a shift, ctrl or alt flag that is true becomes false only through a release edge
at one of its own positions. In one iteration of the column loop: if the flag is true
before and false after, the iteration is at a position of that modifier, the sampled level
is 0 and the position was recorded pressed; so no press edge, no release elsewhere and no
unchanged observation clears it. Across any sequence of sweeps: if the flag is true before
and false after, a release call for a position of that modifier is among the handler calls
made in between. -/
theorem modifier_cleared_only_by_release (s : Scanner) :
    (∀ (hasShift hasCtrl hasAlt : Bool) (row col : Nat) (value : Int),
      (s.shift = true → (s.scanColumn hasShift hasCtrl hasAlt row col value).shift = false →
        isShiftPosition row col ∧ value = 0 ∧
          s.keyStates (keyID row col) = some { Pressed := true }) ∧
      (s.ctrl = true → (s.scanColumn hasShift hasCtrl hasAlt row col value).ctrl = false →
        isCtrlPosition row col ∧ value = 0 ∧
          s.keyStates (keyID row col) = some { Pressed := true }) ∧
      (s.alt = true → (s.scanColumn hasShift hasCtrl hasAlt row col value).alt = false →
        isAltPosition row col ∧ value = 0 ∧
          s.keyStates (keyID row col) = some { Pressed := true })) ∧
    (∀ sweeps : List (Nat → Option (Nat → Int)),
      ∃ calls : List HandlerCall, (s.run sweeps).dispatched = s.dispatched ++ calls ∧
        (s.shift = true → (s.run sweeps).shift = false →
          ∃ r c, isShiftPosition r c ∧ HandlerCall.release r c ∈ calls) ∧
        (s.ctrl = true → (s.run sweeps).ctrl = false →
          ∃ r c, isCtrlPosition r c ∧ HandlerCall.release r c ∈ calls) ∧
        (s.alt = true → (s.run sweeps).alt = false →
          ∃ r c, isAltPosition r c ∧ HandlerCall.release r c ∈ calls)) := by
  refine ⟨fun a b c row col value => scanColumn_clears s a b c row col value, ?_⟩
  intro sweeps
  obtain ⟨c1, d1, k1⟩ := run_cleared Scanner.shift isShiftPosition
    (fun s a b c row col v => (scanColumn_cleared s a b c row col v).1)
    (fun _ _ _ => rfl) sweeps s
  obtain ⟨c2, d2, k2⟩ := run_cleared Scanner.ctrl isCtrlPosition
    (fun s a b c row col v => (scanColumn_cleared s a b c row col v).2.1)
    (fun _ _ _ => rfl) sweeps s
  obtain ⟨c3, d3, k3⟩ := run_cleared Scanner.alt isAltPosition
    (fun s a b c row col v => (scanColumn_cleared s a b c row col v).2.2)
    (fun _ _ _ => rfl) sweeps s
  have e2 : c2 = c1 := List.append_cancel_left (d2.symm.trans d1)
  have e3 : c3 = c1 := List.append_cancel_left (d3.symm.trans d1)
  rw [e2] at k2
  rw [e3] at k3
  refine ⟨c1, d1, fun hs hf => ?_, fun hs hf => ?_, fun hs hf => ?_⟩
  · rcases k1 hs with h | h
    · exact absurd (h.symm.trans hf) (by decide)
    · exact h
  · rcases k2 hs with h | h
    · exact absurd (h.symm.trans hf) (by decide)
    · exact h
  · rcases k3 hs with h | h
    · exact absurd (h.symm.trans hf) (by decide)
    · exact h

/-- C9, witness: with shift held and (0,8) recorded pressed, the iteration that samples
(0,8) low clears shift, and a sweep that reads row 0 all low (the reads of the other rows
fail) clears it through the release call for a shift position. -/
theorem modifier_cleared_only_by_release_witness :
    (isShiftPosition 0 8 ∧ (0 : Int) = 0 ∧
      ({ (newScanner { kb := { events := [], faults := [] } }).setKeyState (keyID 0 8)
          { Pressed := true } with shift := true }).keyStates (keyID 0 8) =
        some { Pressed := true }) ∧
    ∃ calls : List HandlerCall,
      (({ (newScanner { kb := { events := [], faults := [] } }).setKeyState (keyID 0 8)
          { Pressed := true } with shift := true }).run
            [fun r => if r = 0 then some (fun _ => 0) else none]).dispatched = [] ++ calls ∧
        ∃ r c, isShiftPosition r c ∧ HandlerCall.release r c ∈ calls := by
  refine ⟨((modifier_cleared_only_by_release
      { (newScanner { kb := { events := [], faults := [] } }).setKeyState (keyID 0 8)
          { Pressed := true } with shift := true }).1 false false false 0 8 0).1
      rfl (by decide), ?_⟩
  obtain ⟨calls, hd, h1, _, _⟩ := (modifier_cleared_only_by_release
      { (newScanner { kb := { events := [], faults := [] } }).setKeyState (keyID 0 8)
          { Pressed := true } with shift := true }).2 [fun r => if r = 0 then some (fun _ => 0) else none]
  exact ⟨calls, hd, h1 rfl (by decide)⟩

/-! ## Release of a regular key -/

/-- C11: at a position that is none of the shift, ctrl, alt and CODE positions,
`handleKeyRelease` emits no event and leaves shift, ctrl, alt and code (and the recorded key
states) unchanged; a release edge of the column loop at such a position therefore changes
the scanner only in that the position is recorded not pressed (events and the four flags
are as before, every other recorded state is as before). -/
theorem handleKeyRelease_regular_silent (s : Scanner) (row col : Nat)
    (h1 : ¬ isShiftPosition row col) (h2 : ¬ isCtrlPosition row col)
    (h3 : ¬ isAltPosition row col) (h4 : ¬ isCodePosition row col) :
    ((s.handleKeyRelease row col).events = s.events ∧
      (s.handleKeyRelease row col).shift = s.shift ∧
      (s.handleKeyRelease row col).ctrl = s.ctrl ∧
      (s.handleKeyRelease row col).alt = s.alt ∧
      (s.handleKeyRelease row col).code = s.code ∧
      (s.handleKeyRelease row col).keyStates = s.keyStates) ∧
    ∀ (hasShift hasCtrl hasAlt : Bool),
      s.keyStates (keyID row col) = some { Pressed := true } →
      (s.scanColumn hasShift hasCtrl hasAlt row col 0).events = s.events ∧
      (s.scanColumn hasShift hasCtrl hasAlt row col 0).shift = s.shift ∧
      (s.scanColumn hasShift hasCtrl hasAlt row col 0).ctrl = s.ctrl ∧
      (s.scanColumn hasShift hasCtrl hasAlt row col 0).alt = s.alt ∧
      (s.scanColumn hasShift hasCtrl hasAlt row col 0).code = s.code ∧
      (s.scanColumn hasShift hasCtrl hasAlt row col 0).rowWrites = s.rowWrites ∧
      (s.scanColumn hasShift hasCtrl hasAlt row col 0).keyStates (keyID row col) =
        some { Pressed := false } ∧
      ∀ k, k ≠ keyID row col →
        (s.scanColumn hasShift hasCtrl hasAlt row col 0).keyStates k = s.keyStates k := by
  constructor
  · rw [handleKeyRelease_other s row col h1 h2 h3 h4]
    exact ⟨rfl, rfl, rfl, rfl, rfl, rfl⟩
  · intro a b c hk
    rw [scanColumn_release s a b c row col _ hk rfl,
      handleKeyRelease_other _ row col h1 h2 h3 h4]
    exact ⟨rfl, rfl, rfl, rfl, rfl, rfl, setKeyState_same _ _ _,
      fun k hne => setKeyState_other _ _ _ _ hne⟩

/-- C11, witness: (0,1) recorded pressed on a scanner with shift and code set, then sampled
low: nothing is emitted, shift and code stay set, the position is recorded not pressed. -/
theorem handleKeyRelease_regular_silent_witness :
    (({ (newScanner { kb := { events := [], faults := [] } }).setKeyState (keyID 0 1)
          { Pressed := true } with shift := true, code := true }).scanColumn
        false false false 0 1 0).events = [] ∧
      (({ (newScanner { kb := { events := [], faults := [] } }).setKeyState (keyID 0 1)
          { Pressed := true } with shift := true, code := true }).scanColumn
        false false false 0 1 0).shift = true ∧
      (({ (newScanner { kb := { events := [], faults := [] } }).setKeyState (keyID 0 1)
          { Pressed := true } with shift := true, code := true }).scanColumn
        false false false 0 1 0).code = true ∧
      (({ (newScanner { kb := { events := [], faults := [] } }).setKeyState (keyID 0 1)
          { Pressed := true } with shift := true, code := true }).scanColumn
        false false false 0 1 0).keyStates (keyID 0 1) = some { Pressed := false } :=
  have h := (handleKeyRelease_regular_silent
    ({ (newScanner { kb := { events := [], faults := [] } }).setKeyState (keyID 0 1)
        { Pressed := true } with shift := true, code := true }) 0 1
    (by decide) (by decide) (by decide) (by decide)).2 false false false (by decide)
  ⟨h.1, h.2.1, h.2.2.2.2.1, h.2.2.2.2.2.2.1⟩

/-! ## The state machine does not depend on the outcome of emission -/

theorem handleCodeKeyLoop_fst (row col : Nat) (l : List CodeKey) (s t : Scanner) :
    (handleCodeKeyLoop row col l s).1 = (handleCodeKeyLoop row col l t).1 := by
  induction l with
  | nil => rfl
  | cons ck rest ih =>
    unfold handleCodeKeyLoop
    by_cases h : ck.Row = row ∧ ck.Col = col
    · rw [if_pos h, if_pos h]
    · rw [if_neg h, if_neg h]; exact ih

theorem handleCodeKey_code (s : Scanner) (row col : Nat) :
    (s.handleCodeKey row col).2.code = s.code := by
  unfold Scanner.handleCodeKey
  rw [handleCodeKeyLoop_frame]

theorem emitKey_code (s : Scanner) (key : Int) : (s.emitKey key).2.code = s.code := by
  rw [emitKey_frame]

/-- What `handleKeyPress` does to shift, ctrl and alt: each is set at a position of its
modifier and kept everywhere else. -/
theorem handleKeyPress_modflags (s : Scanner) (row col : Nat) :
    (s.handleKeyPress row col).shift = (s.shift || decide (isShiftPosition row col)) ∧
      (s.handleKeyPress row col).ctrl = (s.ctrl || decide (isCtrlPosition row col)) ∧
      (s.handleKeyPress row col).alt = (s.alt || decide (isAltPosition row col)) := by
  obtain ⟨d1, d2, d3, d4⟩ := position_kinds_disjoint row col
  by_cases h1 : isShiftPosition row col
  · rw [handleKeyPress_shiftPos s row col h1]
    simp [h1, (d1 h1).1, (d1 h1).2.1]
  by_cases h2 : isCtrlPosition row col
  · rw [handleKeyPress_ctrlPos s row col h2]
    simp [h1, h2, (d2 h2).2.1]
  by_cases h3 : isAltPosition row col
  · rw [handleKeyPress_altPos s row col h3]
    simp [h1, h2, h3]
  by_cases h4 : isCodePosition row col
  · rw [handleKeyPress_codePos s row col h4]
    simp [h1, h2, h3]
  rw [handleKeyPress_other s row col h1 h2 h3 h4]
  obtain ⟨_, _, _, c4, c5, c6⟩ := handleCodeKey_fields
    { s with dispatched := s.dispatched ++ [HandlerCall.press row col] } row col
  obtain ⟨_, _, _, e4, e5, e6⟩ := emitKey_fields
    { s with dispatched := s.dispatched ++ [HandlerCall.press row col] } (keyMatrixAt row col)
  split_ifs
  · simp [h1, h2, h3, c4, c5, c6]
  · simp [h1, h2, h3]
  · simp [h1, h2, h3, e4, e5, e6]

/-- What `handleKeyRelease` does to the four flags: each is cleared at a position of its
own kind and kept everywhere else. -/
theorem handleKeyRelease_allflags (s : Scanner) (row col : Nat) :
    (s.handleKeyRelease row col).shift = (s.shift && !decide (isShiftPosition row col)) ∧
      (s.handleKeyRelease row col).ctrl = (s.ctrl && !decide (isCtrlPosition row col)) ∧
      (s.handleKeyRelease row col).alt = (s.alt && !decide (isAltPosition row col)) ∧
      (s.handleKeyRelease row col).code = (s.code && !decide (isCodePosition row col)) := by
  obtain ⟨d1, d2, d3, d4⟩ := position_kinds_disjoint row col
  by_cases h1 : isShiftPosition row col
  · rw [handleKeyRelease_shiftPos s row col h1]
    simp [h1, (d1 h1).1, (d1 h1).2.1, (d1 h1).2.2]
  by_cases h2 : isCtrlPosition row col
  · rw [handleKeyRelease_ctrlPos s row col h2]
    simp [h1, h2, (d2 h2).2.1, (d2 h2).2.2]
  by_cases h3 : isAltPosition row col
  · rw [handleKeyRelease_altPos s row col h3]
    simp [h1, h2, h3, (d3 h3).2.2]
  by_cases h4 : isCodePosition row col
  · rw [handleKeyRelease_codePos s row col h4]
    simp [h1, h2, h3, h4]
  rw [handleKeyRelease_other s row col h1 h2 h3 h4]
  simp [h1, h2, h3, h4]

/-- The code flag after `handleKeyPress` is a function of the code flag before and of the
position. -/
theorem handleKeyPress_code_indep (s t : Scanner) (row col : Nat) (h : s.code = t.code) :
    (s.handleKeyPress row col).code = (t.handleKeyPress row col).code := by
  by_cases h1 : isShiftPosition row col
  · rw [handleKeyPress_shiftPos s row col h1, handleKeyPress_shiftPos t row col h1]
    exact h
  by_cases h2 : isCtrlPosition row col
  · rw [handleKeyPress_ctrlPos s row col h2, handleKeyPress_ctrlPos t row col h2]
    exact h
  by_cases h3 : isAltPosition row col
  · rw [handleKeyPress_altPos s row col h3, handleKeyPress_altPos t row col h3]
    exact h
  by_cases h4 : isCodePosition row col
  · rw [handleKeyPress_codePos s row col h4, handleKeyPress_codePos t row col h4]
  rw [handleKeyPress_other s row col h1 h2 h3 h4, handleKeyPress_other t row col h1 h2 h3 h4]
  have hf : ({ s with dispatched := s.dispatched ++ [HandlerCall.press row col]
      }.handleCodeKey row col).1 =
      ({ t with dispatched := t.dispatched ++ [HandlerCall.press row col]
      }.handleCodeKey row col).1 := handleCodeKeyLoop_fst row col CodeKeys _ _
  rw [← hf, ← h]
  split_ifs <;> rfl

theorem handleKeyPress_machineState (s t : Scanner) (row col : Nat)
    (h : s.machineState = t.machineState) :
    (s.handleKeyPress row col).machineState = (t.handleKeyPress row col).machineState := by
  simp only [Scanner.machineState, Prod.mk.injEq] at h ⊢
  obtain ⟨h1, h2, h3, h4, h5⟩ := h
  obtain ⟨a1, a2, a3⟩ := handleKeyPress_modflags s row col
  obtain ⟨b1, b2, b3⟩ := handleKeyPress_modflags t row col
  refine ⟨?_, ?_, ?_, handleKeyPress_code_indep s t row col h4, ?_⟩
  · rw [a1, b1, h1]
  · rw [a2, b2, h2]
  · rw [a3, b3, h3]
  · rw [(handleKeyPress_frame s row col).1, (handleKeyPress_frame t row col).1, h5]

theorem handleKeyRelease_machineState (s t : Scanner) (row col : Nat)
    (h : s.machineState = t.machineState) :
    (s.handleKeyRelease row col).machineState =
      (t.handleKeyRelease row col).machineState := by
  simp only [Scanner.machineState, Prod.mk.injEq] at h ⊢
  obtain ⟨h1, h2, h3, h4, h5⟩ := h
  obtain ⟨a1, a2, a3, a4⟩ := handleKeyRelease_allflags s row col
  obtain ⟨b1, b2, b3, b4⟩ := handleKeyRelease_allflags t row col
  refine ⟨?_, ?_, ?_, ?_, ?_⟩
  · rw [a1, b1, h1]
  · rw [a2, b2, h2]
  · rw [a3, b3, h3]
  · rw [a4, b4, h4]
  · rw [(handleKeyRelease_frame s row col).1, (handleKeyRelease_frame t row col).1, h5]

theorem scanColumn_machineState (s t : Scanner) (hasShift hasCtrl hasAlt : Bool)
    (row col : Nat) (value : Int) (h : s.machineState = t.machineState) :
    (s.scanColumn hasShift hasCtrl hasAlt row col value).machineState =
      (t.scanColumn hasShift hasCtrl hasAlt row col value).machineState := by
  have hk : s.keyStates = t.keyStates := by
    simp only [Scanner.machineState, Prod.mk.injEq] at h; exact h.2.2.2.2
  have hset : ∀ (u v : Scanner) (id : Nat × Nat) (st : KeyState),
      u.machineState = v.machineState →
      (u.setKeyState id st).machineState = (v.setKeyState id st).machineState := by
    intro u v id st huv
    simp only [Scanner.machineState, Prod.mk.injEq, Scanner.setKeyState] at huv ⊢
    obtain ⟨h1, h2, h3, h4, h5⟩ := huv
    exact ⟨h1, h2, h3, h4, by rw [h5]⟩
  have hor : ({ s with
        shift := s.shift || hasShift
        ctrl := s.ctrl || hasCtrl
        alt := s.alt || hasAlt } : Scanner).machineState =
      ({ t with
        shift := t.shift || hasShift
        ctrl := t.ctrl || hasCtrl
        alt := t.alt || hasAlt } : Scanner).machineState := by
    simp only [Scanner.machineState, Prod.mk.injEq] at h ⊢
    obtain ⟨h1, h2, h3, h4, h5⟩ := h
    exact ⟨by rw [h1], by rw [h2], by rw [h3], h4, h5⟩
  cases hst : s.keyStates (keyID row col) with
  | none =>
    have hst' : t.keyStates (keyID row col) = none := by rw [← hk]; exact hst
    by_cases hv : value = 1
    · subst hv
      rw [scanColumn_press s _ _ _ row col (fun st h' => by rw [hst] at h'; cases h'),
        scanColumn_press t _ _ _ row col (fun st h' => by rw [hst'] at h'; cases h')]
      exact handleKeyPress_machineState _ _ row col (hset _ _ _ _ hor)
    · rw [scanColumn_first_idle s _ _ _ row col value hst hv,
        scanColumn_first_idle t _ _ _ row col value hst' hv]
      exact hset _ _ _ _ h
  | some st =>
    have hst' : t.keyStates (keyID row col) = some st := by rw [← hk]; exact hst
    by_cases h1 : value = 1 ∧ st.Pressed = false
    · obtain ⟨rfl, hp⟩ := h1
      rw [scanColumn_press s _ _ _ row col
          (fun st' h' => by rw [hst] at h'; cases h'; exact hp),
        scanColumn_press t _ _ _ row col
          (fun st' h' => by rw [hst'] at h'; cases h'; exact hp)]
      exact handleKeyPress_machineState _ _ row col (hset _ _ _ _ hor)
    · by_cases h0 : value = 0 ∧ st.Pressed = true
      · obtain ⟨rfl, hp⟩ := h0
        rw [scanColumn_release s _ _ _ row col st hst hp,
          scanColumn_release t _ _ _ row col st hst' hp]
        exact handleKeyRelease_machineState _ _ row col (hset _ _ _ _ h)
      · rw [scanColumn_idle s _ _ _ row col value st hst h1 h0,
          scanColumn_idle t _ _ _ row col value st hst' h1 h0]
        exact h

/-- C12: the state after handling an edge does not depend on whether device emission
succeeds. Two scanners that differ in their device only, one on which every call fails and
one on which every call succeeds for instance, have after `handleKeyPress`, after
`handleKeyRelease` and after one iteration of the column loop (edge detection and
dispatch) the same shift, ctrl, alt and code flags and the same recorded key states. -/
theorem machineState_independent_of_device (s : Scanner) (d1 d2 : Device) (row col : Nat)
    (hasShift hasCtrl hasAlt : Bool) (value : Int) :
    ({ s with device := d1 }.handleKeyPress row col).machineState =
        ({ s with device := d2 }.handleKeyPress row col).machineState ∧
      ({ s with device := d1 }.handleKeyRelease row col).machineState =
        ({ s with device := d2 }.handleKeyRelease row col).machineState ∧
      ({ s with device := d1 }.scanColumn hasShift hasCtrl hasAlt row col value).machineState =
        ({ s with device := d2 }.scanColumn hasShift hasCtrl hasAlt row col
          value).machineState :=
  ⟨handleKeyPress_machineState _ _ row col rfl,
    handleKeyRelease_machineState _ _ row col rfl,
    scanColumn_machineState _ _ hasShift hasCtrl hasAlt row col value rfl⟩

/-! ## A failed column read, and the row writes of a sweep -/

theorem scanRows_append (reads : Nat → Option (Nat → Int)) (l1 l2 : List Nat)
    (s : Scanner) :
    scanRows reads (l1 ++ l2) s = scanRows reads l2 (scanRows reads l1 s) := by
  induction l1 generalizing s with
  | nil => rfl
  | cons r rest ih => exact ih _

theorem range_rows_split (r : Nat) (hr : r < 8) :
    List.range DefaultPinConfig.RowPins.length =
      List.range r ++ r :: List.range' (r + 1) (7 - r) := by
  interval_cases r <;> rfl

/-- The sweep seen from row `r`: the rows before it, the scan of row `r`, the rows after
it. -/
theorem scanMatrix_split (s : Scanner) (reads : Nat → Option (Nat → Int)) (r : Nat)
    (hr : r < 8) :
    s.scanMatrix reads =
      scanRows reads (List.range' (r + 1) (7 - r))
        ((scanRows reads (List.range r) s).scanRow r (reads r)) := by
  unfold Scanner.scanMatrix
  rw [range_rows_split r hr, scanRows_append]
  rfl

/-- C13: if the column read of row `r` fails, the row scan consists of the two row writes
only, one-hot `r` and then all low (the row is driven back low): no recorded key state, no
flag, no handler call and no event changes; and the sweep goes on with the scans of the
rows `r+1 .. 7`, each with its own column read. -/
theorem scanRow_read_failure (s : Scanner) (reads : Nat → Option (Nat → Int)) (r : Nat)
    (hr : r < 8) (hfail : reads r = none) :
    (∀ t : Scanner,
      t.scanRow r (reads r) = (t.setRow r 1).setRow r 0 ∧
      (t.scanRow r (reads r)).rowWrites =
        t.rowWrites ++ [(List.replicate 8 (0 : Int)).set r 1, List.replicate 8 (0 : Int)] ∧
      (t.scanRow r (reads r)).keyStates = t.keyStates ∧
      (t.scanRow r (reads r)).shift = t.shift ∧
      (t.scanRow r (reads r)).ctrl = t.ctrl ∧
      (t.scanRow r (reads r)).alt = t.alt ∧
      (t.scanRow r (reads r)).code = t.code ∧
      (t.scanRow r (reads r)).dispatched = t.dispatched ∧
      (t.scanRow r (reads r)).events = t.events) ∧
    s.scanMatrix reads =
      scanRows reads (List.range' (r + 1) (7 - r))
        (((scanRows reads (List.range r) s).setRow r 1).setRow r 0) := by
  constructor
  · intro t
    rw [hfail]
    refine ⟨rfl, ?_, rfl, rfl, rfl, rfl, rfl, rfl, rfl⟩
    show t.rowWrites ++ [_] ++ [_] = _
    rw [List.append_assoc]
    congr 2
    interval_cases r <;> rfl
  · rw [scanMatrix_split s reads r hr, hfail]
    rfl

/-- C13, witness: on a new scanner the read of row 2 fails; the row scan writes one-hot 2
and all low and dispatches nothing. -/
theorem scanRow_read_failure_witness :
    ((newScanner { kb := { events := [], faults := [] } }).scanRow 2 none).rowWrites =
        [[0, 0, 1, 0, 0, 0, 0, 0], [0, 0, 0, 0, 0, 0, 0, 0]] ∧
      ((newScanner { kb := { events := [], faults := [] } }).scanRow 2 none).dispatched = [] ∧
      ((newScanner { kb := { events := [], faults := [] } }).scanRow 2 none).events = [] :=
  have h := (scanRow_read_failure (newScanner { kb := { events := [], faults := [] } })
    (fun r => if r = 2 then none else some (fun _ => 0)) 2 (by decide) rfl).1
    (newScanner { kb := { events := [], faults := [] } })
  ⟨h.2.1, h.2.2.2.2.2.2.2.1, h.2.2.2.2.2.2.2.2⟩

theorem scanColumn_rowWrites (s : Scanner) (hasShift hasCtrl hasAlt : Bool) (row col : Nat)
    (value : Int) :
    (s.scanColumn hasShift hasCtrl hasAlt row col value).rowWrites = s.rowWrites := by
  rcases scanColumn_cases s hasShift hasCtrl hasAlt row col value with h | ⟨h, _, _⟩ | h | h
  · rw [h, (handleKeyPress_frame _ _ _).2.1]; rfl
  · rw [h, (handleKeyRelease_frame _ _ _).2.1]; rfl
  · rw [h]
  · rw [h]; rfl

theorem scanColumns_rowWrites (hasShift hasCtrl hasAlt : Bool) (row i : Nat) (l : List Int)
    (s : Scanner) :
    (scanColumns hasShift hasCtrl hasAlt row i l s).rowWrites = s.rowWrites := by
  induction l generalizing i s with
  | nil => rfl
  | cons v rest ih =>
    show (scanColumns hasShift hasCtrl hasAlt row (i + 1) rest _).rowWrites = _
    rw [ih, scanColumn_rowWrites]

/-- The writes of one row scan, whatever the column read returns: the row high, then the
row low. -/
theorem scanRow_rowWrites (s : Scanner) (row : Nat) (read : Option (Nat → Int)) :
    (s.scanRow row read).rowWrites =
      s.rowWrites ++ [(List.replicate 8 (0 : Int)).set row 1,
        (List.replicate 8 (0 : Int)).set row 0] := by
  cases read with
  | none =>
    show s.rowWrites ++ [_] ++ [_] = _
    rw [List.append_assoc]; rfl
  | some level =>
    show (scanColumns _ _ _ row 0 (readColumns level) (s.setRow row 1)).rowWrites ++ [_] = _
    rw [scanColumns_rowWrites]
    show s.rowWrites ++ [_] ++ [_] = _
    rw [List.append_assoc]; rfl

theorem scanRows_rowWrites (reads : Nat → Option (Nat → Int)) (rows : List Nat)
    (s : Scanner) :
    (scanRows reads rows s).rowWrites =
      s.rowWrites ++ rows.flatMap (fun r =>
        [(List.replicate 8 (0 : Int)).set r 1, (List.replicate 8 (0 : Int)).set r 0]) := by
  induction rows generalizing s with
  | nil => simp [scanRows]
  | cons r rest ih =>
    show (scanRows reads rest (s.scanRow r (reads r))).rowWrites = _
    rw [ih, scanRow_rowWrites, List.flatMap_cons, List.append_assoc]

/-- C14: every row write drives all eight row lines, those other than the addressed one
low. The writes of one full sweep are, for r = 0..7 in order, one-hot(r) followed by all
low, whatever the column reads return; so no written vector has more than one line high,
and during the whole column loop of row r the last vector written is one-hot(r). -/
theorem sweep_row_writes (s : Scanner) (reads : Nat → Option (Nat → Int)) :
    (∀ (r : Nat) (v : Int), ∃ w : List Int,
      (s.setRow r v).rowWrites = s.rowWrites ++ [w] ∧ w.length = 8 ∧
        (∀ i, i ≠ r → w.getD i 0 = 0) ∧ (r < 8 → w.getD r 0 = v)) ∧
    (s.scanMatrix reads).rowWrites = s.rowWrites ++
      [[1, 0, 0, 0, 0, 0, 0, 0], [0, 0, 0, 0, 0, 0, 0, 0],
       [0, 1, 0, 0, 0, 0, 0, 0], [0, 0, 0, 0, 0, 0, 0, 0],
       [0, 0, 1, 0, 0, 0, 0, 0], [0, 0, 0, 0, 0, 0, 0, 0],
       [0, 0, 0, 1, 0, 0, 0, 0], [0, 0, 0, 0, 0, 0, 0, 0],
       [0, 0, 0, 0, 1, 0, 0, 0], [0, 0, 0, 0, 0, 0, 0, 0],
       [0, 0, 0, 0, 0, 1, 0, 0], [0, 0, 0, 0, 0, 0, 0, 0],
       [0, 0, 0, 0, 0, 0, 1, 0], [0, 0, 0, 0, 0, 0, 0, 0],
       [0, 0, 0, 0, 0, 0, 0, 1], [0, 0, 0, 0, 0, 0, 0, 0]] ∧
    (∀ w ∈ ((s.scanMatrix reads).rowWrites.drop s.rowWrites.length),
      (w.filter (fun x => x ≠ 0)).length ≤ 1) ∧
    (∀ (r : Nat) (level : Nat → Int) (n : Nat),
      (s.scanRowUpTo r level n).rowWrites =
        s.rowWrites ++ [(List.replicate 8 (0 : Int)).set r 1]) := by
  have hsweep : (s.scanMatrix reads).rowWrites = s.rowWrites ++
      [[1, 0, 0, 0, 0, 0, 0, 0], [0, 0, 0, 0, 0, 0, 0, 0],
       [0, 1, 0, 0, 0, 0, 0, 0], [0, 0, 0, 0, 0, 0, 0, 0],
       [0, 0, 1, 0, 0, 0, 0, 0], [0, 0, 0, 0, 0, 0, 0, 0],
       [0, 0, 0, 1, 0, 0, 0, 0], [0, 0, 0, 0, 0, 0, 0, 0],
       [0, 0, 0, 0, 1, 0, 0, 0], [0, 0, 0, 0, 0, 0, 0, 0],
       [0, 0, 0, 0, 0, 1, 0, 0], [0, 0, 0, 0, 0, 0, 0, 0],
       [0, 0, 0, 0, 0, 0, 1, 0], [0, 0, 0, 0, 0, 0, 0, 0],
       [0, 0, 0, 0, 0, 0, 0, 1], [0, 0, 0, 0, 0, 0, 0, 0]] := by
    unfold Scanner.scanMatrix
    rw [scanRows_rowWrites]
    rfl
  refine ⟨fun r v => ⟨(List.replicate 8 (0 : Int)).set r v, rfl, by simp, ?_, ?_⟩,
    hsweep, ?_, ?_⟩
  · intro i hi
    rw [List.getD_eq_getElem?_getD, List.getElem?_set, if_neg (Ne.symm hi),
      ← List.getD_eq_getElem?_getD]
    by_cases h8 : i < 8
    · interval_cases i <;> rfl
    · rw [List.getD_eq_default _ _ (by simp; omega)]
  · intro hr
    interval_cases r <;> rfl
  · rw [hsweep, List.drop_left]
    decide
  · intro r level n
    show (scanColumns _ _ _ r 0 _ (s.setRow r 1)).rowWrites = _
    rw [scanColumns_rowWrites]
    rfl

/-- C14, witness: the write of `setRow 3 1` is one-hot 3, with line 5 low. -/
theorem sweep_row_writes_witness :
    ∃ w : List Int,
      ((newScanner { kb := { events := [], faults := [] } }).setRow 3 1).rowWrites = [w] ∧
        w.length = 8 ∧ w.getD 5 0 = 0 ∧ w.getD 3 0 = 1 := by
  obtain ⟨w, h1, h2, h3, h4⟩ := (sweep_row_writes
    (newScanner { kb := { events := [], faults := [] } }) (fun _ => none)).1 3 1
  exact ⟨w, h1, h2, h3 5 (by decide), h4 (by decide)⟩

/-! ## The positions a sweep dispatches -/

theorem scanRow_dispatched (s : Scanner) (row : Nat) (read : Option (Nat → Int)) :
    ∃ calls, (s.scanRow row read).dispatched = s.dispatched ++ calls ∧
      ∀ c ∈ calls, ∃ col, col < 9 ∧
        (c = HandlerCall.press row col ∨ c = HandlerCall.release row col) := by
  cases read with
  | none => exact ⟨[], (List.append_nil _).symm, fun c hc => absurd hc (List.not_mem_nil c)⟩
  | some level =>
    obtain ⟨calls, h1, h2⟩ := scanColumns_dispatched (rowHasShift row (readColumns level))
      (rowHasCtrl row (readColumns level)) (rowHasAlt row (readColumns level)) row 0
      (readColumns level) (s.setRow row 1)
    refine ⟨calls, h1, fun c hc => ?_⟩
    obtain ⟨col, _, hu, hcol⟩ := h2 c hc
    rw [readColumns_length] at hu
    exact ⟨col, by omega, hcol⟩

theorem scanRows_dispatched (reads : Nat → Option (Nat → Int)) (rows : List Nat)
    (s : Scanner) :
    ∃ calls, (scanRows reads rows s).dispatched = s.dispatched ++ calls ∧
      ∀ c ∈ calls, ∃ row col, row ∈ rows ∧ col < 9 ∧
        (c = HandlerCall.press row col ∨ c = HandlerCall.release row col) := by
  induction rows generalizing s with
  | nil => exact ⟨[], (List.append_nil _).symm, fun c hc => absurd hc (List.not_mem_nil c)⟩
  | cons r rest ih =>
    obtain ⟨c1, h1, h1'⟩ := scanRow_dispatched s r (reads r)
    obtain ⟨c2, h2, h2'⟩ := ih (s.scanRow r (reads r))
    refine ⟨c1 ++ c2, ?_, fun c hc => ?_⟩
    · show (scanRows reads rest (s.scanRow r (reads r))).dispatched = _
      rw [h2, h1, List.append_assoc]
    · rcases List.mem_append.mp hc with hc | hc
      · obtain ⟨col, hcol, hk⟩ := h1' c hc
        exact ⟨r, col, List.mem_cons_self _ _, hcol, hk⟩
      · obtain ⟨row, col, hrow, hcol, hk⟩ := h2' c hc
        exact ⟨row, col, List.mem_cons_of_mem _ hrow, hcol, hk⟩

/-- C15: the key lookup is total over the 8x9 grid, and a sweep stays inside the grid.
Every position of the grid has an entry in `KeyMatrix`, the one the lookup returns. Every
handler call that `scanMatrix` dispatches is for a position with row < 8 and col < 9, for
which the bounds test of `handleKeyPress` ("Invalid key position") is false. The index 8
of the pre-scan is inside the column buffer, and every row index of the sweep is inside
the row value vector. -/
theorem sweep_positions_in_grid (s : Scanner) (reads : Nat → Option (Nat → Int)) :
    (∀ row col, row < 8 → col < 9 →
      (KeyMatrix.get? row).bind (fun r => r.get? col) = some (keyMatrixAt row col)) ∧
    (∃ calls, (s.scanMatrix reads).dispatched = s.dispatched ++ calls ∧
      ∀ c ∈ calls, ∃ row col, row < 8 ∧ col < 9 ∧
        (c = HandlerCall.press row col ∨ c = HandlerCall.release row col) ∧
        ¬ (row ≥ KeyMatrix.length ∨ col ≥ (keyMatrixRow row).length)) ∧
    (∀ level : Nat → Int, ShiftCol < (readColumns level).length ∧
      CtrlCol < (readColumns level).length ∧ AltCol < (readColumns level).length) ∧
    (∀ row ∈ List.range DefaultPinConfig.RowPins.length,
      row < (List.replicate DefaultPinConfig.RowPins.length (0 : Int)).length) := by
  refine ⟨?_, ?_, ?_, ?_⟩
  · intro row col hr hc
    interval_cases row <;> interval_cases col <;> rfl
  · obtain ⟨calls, h1, h2⟩ := scanRows_dispatched reads
      (List.range DefaultPinConfig.RowPins.length) s
    refine ⟨calls, h1, fun c hc => ?_⟩
    obtain ⟨row, col, hrow, hcol, hk⟩ := h2 c hc
    have hr : row < 8 := List.mem_range.mp hrow
    exact ⟨row, col, hr, hcol, hk, inGrid_bounds row col hr hcol⟩
  · intro level
    rw [readColumns_length]
    exact ⟨by decide, by decide, by decide⟩
  · intro row hrow
    rw [List.length_replicate]
    exact List.mem_range.mp hrow

/-- C15, witness: the lookup at (7,8) finds KeyF12, and the sweep of a new scanner that
reads row 7 with column 8 high dispatches only calls inside the grid. -/
theorem sweep_positions_in_grid_witness :
    (KeyMatrix.get? 7).bind (fun r => r.get? 8) = some uinput.KeyF12 ∧
      ∃ calls,
        ((newScanner { kb := { events := [], faults := [] } }).scanMatrix
          (fun r => if r = 7 then some (fun c => if c = 8 then 1 else 0) else none)).dispatched =
            calls ∧
        ∀ c ∈ calls, ∃ row col, row < 8 ∧ col < 9 ∧
          (c = HandlerCall.press row col ∨ c = HandlerCall.release row col) := by
  obtain ⟨h1, ⟨calls, h2, h3⟩, _, _⟩ := sweep_positions_in_grid
    (newScanner { kb := { events := [], faults := [] } })
    (fun r => if r = 7 then some (fun c => if c = 8 then 1 else 0) else none)
  refine ⟨h1 7 8 (by decide) (by decide), calls, by simpa [newScanner] using h2,
    fun c hc => ?_⟩
  obtain ⟨row, col, hr, hcol, hk, _⟩ := h3 c hc
  exact ⟨row, col, hr, hcol, hk⟩

/-! ## The mutex and the device calls -/

theorem everyDeviceCallHeld_body (l : List KbEvent) :
    everyDeviceCallHeld true (l.map MutexStep.deviceCall ++ [MutexStep.unlock]) = true := by
  induction l with
  | nil => rfl
  | cons e rest ih =>
    show (true && everyDeviceCallHeld true (rest.map MutexStep.deviceCall ++ _)) = true
    rw [ih]; rfl

/-- C16, as the code has it: `handleKeyPress` and `handleKeyRelease` take the mutex on
entry and release it by a deferred unlock on return, so every device call made while
handling a press or release edge is made while the mutex is held. -/
theorem device_calls_made_under_lock (s : Scanner) (row col : Nat) :
    everyDeviceCallHeld false (s.handleKeyPressSteps row col) = true ∧
      everyDeviceCallHeld false (s.handleKeyReleaseSteps row col) = true :=
  ⟨everyDeviceCallHeld_body _, everyDeviceCallHeld_body _⟩

/-- C16, counterexample: the press of the shift position (0,8) on a new scanner issues
its key-down between the lock and the unlock of `handleKeyPress`; it is not true that no
device call is made while the mutex is held. -/
theorem device_calls_made_under_lock_counterexample :
    (newScanner { kb := { events := [], faults := [] } }).handleKeyPressSteps 0 8 =
        [MutexStep.lock, MutexStep.deviceCall (KbEvent.keyDown uinput.KeyLeftshift),
          MutexStep.unlock] ∧
      ¬ (deviceCallWhileHeld false
        ((newScanner { kb := { events := [], faults := [] } }).handleKeyPressSteps 0 8) =
          false) := by
  constructor
  · decide
  · decide

/-! ## Flags and recorded key states at the end of a row scan -/

/-- The code flag is true after `handleKeyPress` only if it was true before or the
position is the CODE position. -/
theorem handleKeyPress_code_origin (s : Scanner) (row col : Nat)
    (h : (s.handleKeyPress row col).code = true) :
    s.code = true ∨ isCodePosition row col := by
  by_cases h4 : isCodePosition row col
  · exact Or.inr h4
  left
  by_cases h1 : isShiftPosition row col
  · rw [handleKeyPress_shiftPos s row col h1] at h; exact h
  by_cases h2 : isCtrlPosition row col
  · rw [handleKeyPress_ctrlPos s row col h2] at h; exact h
  by_cases h3 : isAltPosition row col
  · rw [handleKeyPress_altPos s row col h3] at h; exact h
  rw [handleKeyPress_other s row col h1 h2 h3 h4] at h
  split_ifs at h
  all_goals exact h

theorem keyID_ne (r c row col : Nat) (h : (r, c) ≠ (row, col)) : keyID r c ≠ keyID row col :=
  h

/-- What one iteration of the column loop does to the flags and the recorded key states:
a press edge, a release edge, or no transition. -/
theorem scanColumn_summary (s : Scanner) (hasShift hasCtrl hasAlt : Bool) (row col : Nat)
    (value : Int) (t : Scanner) (ht : s.scanColumn hasShift hasCtrl hasAlt row col value = t) :
    (value = 1 ∧ ¬ s.pressed row col ∧ t.pressed row col ∧
      (∀ r c, (r, c) ≠ (row, col) → (t.pressed r c ↔ s.pressed r c)) ∧
      t.shift = (s.shift || hasShift || decide (isShiftPosition row col)) ∧
      t.ctrl = (s.ctrl || hasCtrl || decide (isCtrlPosition row col)) ∧
      t.alt = (s.alt || hasAlt || decide (isAltPosition row col)) ∧
      (t.code = true → s.code = true ∨ isCodePosition row col)) ∨
    (value = 0 ∧ s.pressed row col ∧ ¬ t.pressed row col ∧
      (∀ r c, (r, c) ≠ (row, col) → (t.pressed r c ↔ s.pressed r c)) ∧
      t.shift = (s.shift && !decide (isShiftPosition row col)) ∧
      t.ctrl = (s.ctrl && !decide (isCtrlPosition row col)) ∧
      t.alt = (s.alt && !decide (isAltPosition row col)) ∧
      t.code = (s.code && !decide (isCodePosition row col))) ∨
    ((value = 1 → s.pressed row col) ∧
      (∀ r c, t.pressed r c ↔ s.pressed r c) ∧
      t.shift = s.shift ∧ t.ctrl = s.ctrl ∧ t.alt = s.alt ∧ t.code = s.code) := by
  subst ht
  have hpress : ∀ (h : ∀ st, s.keyStates (keyID row col) = some st → st.Pressed = false),
      ¬ s.pressed row col →
      (¬ s.pressed row col ∧
        (s.scanColumn hasShift hasCtrl hasAlt row col 1).pressed row col ∧
        (∀ r c, (r, c) ≠ (row, col) →
          ((s.scanColumn hasShift hasCtrl hasAlt row col 1).pressed r c ↔ s.pressed r c)) ∧
        (s.scanColumn hasShift hasCtrl hasAlt row col 1).shift =
          (s.shift || hasShift || decide (isShiftPosition row col)) ∧
        (s.scanColumn hasShift hasCtrl hasAlt row col 1).ctrl =
          (s.ctrl || hasCtrl || decide (isCtrlPosition row col)) ∧
        (s.scanColumn hasShift hasCtrl hasAlt row col 1).alt =
          (s.alt || hasAlt || decide (isAltPosition row col)) ∧
        ((s.scanColumn hasShift hasCtrl hasAlt row col 1).code = true →
          s.code = true ∨ isCodePosition row col)) := by
    intro h hnp
    rw [scanColumn_press s hasShift hasCtrl hasAlt row col h]
    obtain ⟨m1, m2, m3⟩ := handleKeyPress_modflags
      ({ s with
          shift := s.shift || hasShift
          ctrl := s.ctrl || hasCtrl
          alt := s.alt || hasAlt }.setKeyState (keyID row col) { Pressed := true }) row col
    have hk := (handleKeyPress_frame
      ({ s with
          shift := s.shift || hasShift
          ctrl := s.ctrl || hasCtrl
          alt := s.alt || hasAlt }.setKeyState (keyID row col) { Pressed := true }) row col).1
    have hco := handleKeyPress_code_origin
      ({ s with
          shift := s.shift || hasShift
          ctrl := s.ctrl || hasCtrl
          alt := s.alt || hasAlt }.setKeyState (keyID row col) { Pressed := true }) row col
    refine ⟨hnp, ?_, ?_, m1, m2, m3, hco⟩
    · unfold Scanner.pressed
      rw [hk]; exact setKeyState_same _ _ _
    · intro r c hne
      unfold Scanner.pressed
      rw [hk, setKeyState_other _ _ _ _ (keyID_ne r c row col hne)]
  cases hst : s.keyStates (keyID row col) with
  | none =>
    have hnp : ¬ s.pressed row col := by unfold Scanner.pressed; rw [hst]; simp
    by_cases hv : value = 1
    · subst hv
      exact Or.inl ⟨rfl, hpress (fun st h' => by rw [hst] at h'; cases h') hnp⟩
    · refine Or.inr (Or.inr ?_)
      rw [scanColumn_first_idle s _ _ _ row col value hst hv]
      refine ⟨fun h => absurd h hv, fun r c => ?_, rfl, rfl, rfl, rfl⟩
      unfold Scanner.pressed
      by_cases hrc : keyID r c = keyID row col
      · rw [hrc, setKeyState_same, hst]; simp
      · rw [setKeyState_other _ _ _ _ hrc]
  | some st =>
    by_cases h1 : value = 1 ∧ st.Pressed = false
    · obtain ⟨rfl, hp⟩ := h1
      have hnp : ¬ s.pressed row col := by
        unfold Scanner.pressed; rw [hst]; intro h'; cases h'; cases hp
      exact Or.inl ⟨rfl, hpress (fun st' h' => by rw [hst] at h'; cases h'; exact hp) hnp⟩
    · by_cases h0 : value = 0 ∧ st.Pressed = true
      · obtain ⟨rfl, hp⟩ := h0
        have hsp : s.pressed row col := by
          unfold Scanner.pressed; rw [hst]; cases st; simp only at hp; rw [hp]
        refine Or.inr (Or.inl ?_)
        rw [scanColumn_release s _ _ _ row col st hst hp]
        obtain ⟨a1, a2, a3, a4⟩ := handleKeyRelease_allflags
          (s.setKeyState (keyID row col) { Pressed := false }) row col
        have hk := (handleKeyRelease_frame
          (s.setKeyState (keyID row col) { Pressed := false }) row col).1
        refine ⟨rfl, hsp, ?_, ?_, a1, a2, a3, a4⟩
        · unfold Scanner.pressed
          rw [hk, setKeyState_same]; simp
        · intro r c hne
          unfold Scanner.pressed
          rw [hk, setKeyState_other _ _ _ _ (keyID_ne r c row col hne)]
      · refine Or.inr (Or.inr ?_)
        rw [scanColumn_idle s _ _ _ row col value st hst h1 h0]
        refine ⟨fun hv => ?_, fun r c => Iff.rfl, rfl, rfl, rfl, rfl⟩
        unfold Scanner.pressed
        rw [hst]
        cases st with
        | mk p =>
          cases p
          · exact absurd ⟨hv, rfl⟩ h1
          · rfl

theorem specialPosition_col (row col : Nat) (h : col ≠ 8) :
    ¬ isShiftPosition row col ∧ ¬ isCtrlPosition row col ∧ ¬ isAltPosition row col ∧
      ¬ isCodePosition row col := by
  unfold isShiftPosition isCtrlPosition isAltPosition isCodePosition
  unfold ShiftCol CtrlCol AltCol CodeCol
  omega

theorem specialPosition_col8 (row : Nat) :
    (isShiftPosition row 8 ↔ (row = 0 ∨ row = 4 ∨ row = 5 ∨ row = 6)) ∧
      (isCtrlPosition row 8 ↔ row = 1) ∧ (isAltPosition row 8 ↔ row = 2) ∧
      (isCodePosition row 8 ↔ row = 3) := by
  unfold isShiftPosition isCtrlPosition isAltPosition isCodePosition
  unfold ShiftCol CtrlCol AltCol CodeCol CtrlRow AltRow CodeRow
  omega

/-- One iteration of the column loop, for a column other than 8, keeps the mid-row
relation. -/
theorem midRow_step_regular (row : Nat) (high8 : Prop) (c : Nat) (hc : c < 8) (s : Scanner)
    (hasShift hasCtrl hasAlt : Bool) (value : Int)
    (hS : hasShift = true → (row = 0 ∨ row = 4 ∨ row = 5 ∨ row = 6) ∧ high8)
    (hC : hasCtrl = true → row = 1 ∧ high8)
    (hA : hasAlt = true → row = 2 ∧ high8)
    (h : MidRowInvariant row high8 c s) :
    MidRowInvariant row high8 (c + 1)
      (s.scanColumn hasShift hasCtrl hasAlt row c value) := by
  obtain ⟨n1, n2, n3, n4⟩ := specialPosition_col row c (by omega)
  have hne : ∀ r, (r, 8) ≠ (row, c) := by
    intro r h'; injection h' with _ h2; omega
  obtain ⟨i1, i2, i3, i4, i5, i6⟩ := h
  have hle : c ≤ 8 := by omega
  have hle' : c + 1 ≤ 8 := by omega
  rcases scanColumn_summary s hasShift hasCtrl hasAlt row c value _ rfl with
    ⟨_, _, _, hp, f1, f2, f3, f4⟩ | ⟨_, _, _, hp, f1, f2, f3, f4⟩ | ⟨_, hp, f1, f2, f3, f4⟩
  · unfold MidRowInvariant
    rw [hp 1 8 (hne 1), hp 2 8 (hne 2), hp 0 8 (hne 0), hp 4 8 (hne 4), hp 5 8 (hne 5),
      hp 6 8 (hne 6), hp 3 8 (hne 3), f1, f2, f3]
    simp only [n1, n2, n3, decide_False, Bool.or_false, Bool.or_eq_true]
    refine ⟨fun h => Or.inl (i1 h), ?_, fun h => Or.inl (i3 h), ?_, ?_, ?_⟩
    · rintro (h | h)
      · rcases i2 h with h | ⟨a, b, _⟩
        · exact Or.inl h
        · exact Or.inr ⟨a, b, hle'⟩
      · exact Or.inr ⟨(hC h).1, (hC h).2, hle'⟩
    · rintro (h | h)
      · rcases i4 h with h | ⟨a, b, _⟩
        · exact Or.inl h
        · exact Or.inr ⟨a, b, hle'⟩
      · exact Or.inr ⟨(hA h).1, (hA h).2, hle'⟩
    · rintro (h | h)
      · rcases i5 h with h | ⟨a, b, _⟩
        · exact Or.inl h
        · exact Or.inr ⟨a, b, hle'⟩
      · exact Or.inr ⟨(hS h).1, (hS h).2, hle'⟩
    · intro h
      rcases f4 h with h | h
      · exact i6 h
      · exact absurd h n4
  · unfold MidRowInvariant
    rw [hp 1 8 (hne 1), hp 2 8 (hne 2), hp 0 8 (hne 0), hp 4 8 (hne 4), hp 5 8 (hne 5),
      hp 6 8 (hne 6), hp 3 8 (hne 3), f1, f2, f3, f4]
    simp only [n1, n2, n3, n4, decide_False, Bool.not_false, Bool.and_true]
    refine ⟨i1, ?_, i3, ?_, ?_, i6⟩
    · intro h
      rcases i2 h with h | ⟨a, b, _⟩
      · exact Or.inl h
      · exact Or.inr ⟨a, b, hle'⟩
    · intro h
      rcases i4 h with h | ⟨a, b, _⟩
      · exact Or.inl h
      · exact Or.inr ⟨a, b, hle'⟩
    · intro h
      rcases i5 h with h | ⟨a, b, _⟩
      · exact Or.inl h
      · exact Or.inr ⟨a, b, hle'⟩
  · unfold MidRowInvariant
    rw [hp 1 8, hp 2 8, hp 0 8, hp 4 8, hp 5 8, hp 6 8, hp 3 8, f1, f2, f3, f4]
    refine ⟨i1, ?_, i3, ?_, ?_, i6⟩
    · intro h
      rcases i2 h with h | ⟨a, b, _⟩
      · exact Or.inl h
      · exact Or.inr ⟨a, b, hle'⟩
    · intro h
      rcases i4 h with h | ⟨a, b, _⟩
      · exact Or.inl h
      · exact Or.inr ⟨a, b, hle'⟩
    · intro h
      rcases i5 h with h | ⟨a, b, _⟩
      · exact Or.inl h
      · exact Or.inr ⟨a, b, hle'⟩

/-- The iteration of the column loop for column 8 ends the mid-row relation: afterwards
each flag agrees with the recorded key states without the help of a pending column. -/
theorem midRow_step_last (row : Nat) (high8 : Prop) (s : Scanner)
    (hasShift hasCtrl hasAlt : Bool) (value : Int)
    (hS : hasShift = true → (row = 0 ∨ row = 4 ∨ row = 5 ∨ row = 6) ∧ high8)
    (hC : hasCtrl = true → row = 1 ∧ high8)
    (hA : hasAlt = true → row = 2 ∧ high8)
    (hv : value = 1 ↔ high8)
    (h : MidRowInvariant row high8 8 s) :
    MidRowInvariant row high8 9 (s.scanColumn hasShift hasCtrl hasAlt row 8 value) := by
  obtain ⟨p1, p2, p3, p4⟩ := specialPosition_col8 row
  obtain ⟨i1, i2, i3, i4, i5, i6⟩ := h
  have hne : ∀ r, r ≠ row → (r, 8) ≠ (row, 8) := by
    intro r hr h'; injection h' with h1 _; exact hr h1
  have hsum := scanColumn_summary s hasShift hasCtrl hasAlt row 8 value _ rfl
  generalize s.scanColumn hasShift hasCtrl hasAlt row 8 value = t at hsum ⊢
  unfold MidRowInvariant
  rcases hsum with ⟨hv1, hnp, htp, hp, f1, f2, f3, f4⟩ | ⟨hv0, hsp, hnp, hp, f1, f2, f3, f4⟩ |
    ⟨hvp, hp, f1, f2, f3, f4⟩
  · -- press edge at (row, 8)
    have g1 : t.shift = true ↔ (s.shift = true ∨ hasShift = true ∨ isShiftPosition row 8) := by
      rw [f1]; simp [or_assoc]
    have g2 : t.ctrl = true ↔ (s.ctrl = true ∨ hasCtrl = true ∨ isCtrlPosition row 8) := by
      rw [f2]; simp [or_assoc]
    have g3 : t.alt = true ↔ (s.alt = true ∨ hasAlt = true ∨ isAltPosition row 8) := by
      rw [f3]; simp [or_assoc]
    refine ⟨?_, ?_, ?_, ?_, ?_, ?_⟩
    · by_cases hr : row = 1
      · exact fun _ => g2.mpr (Or.inr (Or.inr (p2.mpr hr)))
      · exact fun h => g2.mpr (Or.inl (i1 ((hp 1 8 (hne 1 (Ne.symm hr))).mp h)))
    · intro h
      left
      by_cases hr : row = 1
      · subst hr; exact htp
      · rcases g2.mp h with h | h | h
        · rcases i2 h with h | ⟨a, _, _⟩
          · exact (hp 1 8 (hne 1 (Ne.symm hr))).mpr h
          · exact absurd a hr
        · exact absurd (hC h).1 hr
        · exact absurd (p2.mp h) hr
    · by_cases hr : row = 2
      · exact fun _ => g3.mpr (Or.inr (Or.inr (p3.mpr hr)))
      · exact fun h => g3.mpr (Or.inl (i3 ((hp 2 8 (hne 2 (Ne.symm hr))).mp h)))
    · intro h
      left
      by_cases hr : row = 2
      · subst hr; exact htp
      · rcases g3.mp h with h | h | h
        · rcases i4 h with h | ⟨a, _, _⟩
          · exact (hp 2 8 (hne 2 (Ne.symm hr))).mpr h
          · exact absurd a hr
        · exact absurd (hA h).1 hr
        · exact absurd (p3.mp h) hr
    · intro h
      left
      by_cases hr : row = 0 ∨ row = 4 ∨ row = 5 ∨ row = 6
      · rcases hr with rfl | rfl | rfl | rfl
        · exact Or.inl htp
        · exact Or.inr (Or.inl htp)
        · exact Or.inr (Or.inr (Or.inl htp))
        · exact Or.inr (Or.inr (Or.inr htp))
      · rcases g1.mp h with h | h | h
        · rcases i5 h with h | ⟨a, _, _⟩
          · rcases h with h | h | h | h
            · exact Or.inl ((hp 0 8 (hne 0 (by omega))).mpr h)
            · exact Or.inr (Or.inl ((hp 4 8 (hne 4 (by omega))).mpr h))
            · exact Or.inr (Or.inr (Or.inl ((hp 5 8 (hne 5 (by omega))).mpr h)))
            · exact Or.inr (Or.inr (Or.inr ((hp 6 8 (hne 6 (by omega))).mpr h)))
          · exact absurd a hr
        · exact absurd (hS h).1 hr
        · exact absurd (p1.mp h) hr
    · intro h
      by_cases hr : row = 3
      · subst hr; exact htp
      · rcases f4 h with h | h
        · exact (hp 3 8 (hne 3 (Ne.symm hr))).mpr (i6 h)
        · exact absurd (p4.mp h) hr
  · -- release edge at (row, 8)
    have g1 : t.shift = true ↔ (s.shift = true ∧ ¬ isShiftPosition row 8) := by
      rw [f1]; simp
    have g2 : t.ctrl = true ↔ (s.ctrl = true ∧ ¬ isCtrlPosition row 8) := by
      rw [f2]; simp
    have g3 : t.alt = true ↔ (s.alt = true ∧ ¬ isAltPosition row 8) := by
      rw [f3]; simp
    have g4 : t.code = true ↔ (s.code = true ∧ ¬ isCodePosition row 8) := by
      rw [f4]; simp
    refine ⟨?_, ?_, ?_, ?_, ?_, ?_⟩
    · by_cases hr : row = 1
      · subst hr; exact fun h => absurd h hnp
      · exact fun h => g2.mpr ⟨i1 ((hp 1 8 (hne 1 (Ne.symm hr))).mp h), fun h' => hr (p2.mp h')⟩
    · intro h
      obtain ⟨hs, hn⟩ := g2.mp h
      have hr : row ≠ 1 := fun e => hn (p2.mpr e)
      rcases i2 hs with h | ⟨a, _, _⟩
      · exact Or.inl ((hp 1 8 (hne 1 (Ne.symm hr))).mpr h)
      · exact absurd a hr
    · by_cases hr : row = 2
      · subst hr; exact fun h => absurd h hnp
      · exact fun h => g3.mpr ⟨i3 ((hp 2 8 (hne 2 (Ne.symm hr))).mp h), fun h' => hr (p3.mp h')⟩
    · intro h
      obtain ⟨hs, hn⟩ := g3.mp h
      have hr : row ≠ 2 := fun e => hn (p3.mpr e)
      rcases i4 hs with h | ⟨a, _, _⟩
      · exact Or.inl ((hp 2 8 (hne 2 (Ne.symm hr))).mpr h)
      · exact absurd a hr
    · intro h
      obtain ⟨hs, hn⟩ := g1.mp h
      have hr : ¬ (row = 0 ∨ row = 4 ∨ row = 5 ∨ row = 6) := fun e => hn (p1.mpr e)
      rcases i5 hs with h | ⟨a, _, _⟩
      · left
        rcases h with h | h | h | h
        · exact Or.inl ((hp 0 8 (hne 0 (by omega))).mpr h)
        · exact Or.inr (Or.inl ((hp 4 8 (hne 4 (by omega))).mpr h))
        · exact Or.inr (Or.inr (Or.inl ((hp 5 8 (hne 5 (by omega))).mpr h)))
        · exact Or.inr (Or.inr (Or.inr ((hp 6 8 (hne 6 (by omega))).mpr h)))
      · exact absurd a hr
    · intro h
      obtain ⟨hs, hn⟩ := g4.mp h
      have hr : row ≠ 3 := fun e => hn (p4.mpr e)
      exact (hp 3 8 (hne 3 (Ne.symm hr))).mpr (i6 hs)
  · -- no transition at (row, 8)
    rw [hp 1 8, hp 2 8, hp 0 8, hp 4 8, hp 5 8, hp 6 8, hp 3 8, f1, f2, f3, f4]
    refine ⟨i1, ?_, i3, ?_, ?_, i6⟩
    · intro h
      rcases i2 h with h | ⟨a, b, _⟩
      · exact Or.inl h
      · subst a; exact Or.inl (hvp (hv.mpr b))
    · intro h
      rcases i4 h with h | ⟨a, b, _⟩
      · exact Or.inl h
      · subst a; exact Or.inl (hvp (hv.mpr b))
    · intro h
      rcases i5 h with h | ⟨a, b, _⟩
      · exact Or.inl h
      · have hrp := hvp (hv.mpr b)
        left
        rcases a with rfl | rfl | rfl | rfl
        · exact Or.inl hrp
        · exact Or.inr (Or.inl hrp)
        · exact Or.inr (Or.inr (Or.inl hrp))
        · exact Or.inr (Or.inr (Or.inr hrp))

theorem rowHas_high8 (row : Nat) (level : Nat → Int) :
    (rowHasShift row (readColumns level) = true →
      (row = 0 ∨ row = 4 ∨ row = 5 ∨ row = 6) ∧ level 8 = 1) ∧
    (rowHasCtrl row (readColumns level) = true → row = 1 ∧ level 8 = 1) ∧
    (rowHasAlt row (readColumns level) = true → row = 2 ∧ level 8 = 1) := by
  have hg : (readColumns level).getD 8 0 = level 8 := readColumns_getD level 8 (by omega)
  unfold rowHasShift rowHasCtrl rowHasAlt ShiftCol CtrlCol AltCol CtrlRow AltRow
  rw [hg]
  simp only [decide_eq_true_eq]
  exact ⟨fun h => ⟨h.2, h.1⟩, id, id⟩

/-- The mid-row relation holds after any number of columns of a row scan that starts in
a state satisfying the row-end relation. -/
theorem scanRowUpTo_midRow (s : Scanner) (row : Nat) (level : Nat → Int)
    (h : RowEndInvariant s) (n : Nat) (hn : n ≤ 9) :
    MidRowInvariant row (level 8 = 1) n (s.scanRowUpTo row level n) := by
  induction n with
  | zero =>
    obtain ⟨h1, h2, h3, h4⟩ := h
    exact ⟨h1.mpr, fun a => Or.inl (h1.mp a), h2.mpr, fun a => Or.inl (h2.mp a),
      fun a => Or.inl (h3 a), h4⟩
  | succ c ih =>
    have ihc := ih (by omega)
    obtain ⟨hS, hC, hA⟩ := rowHas_high8 row level
    rw [scanRowUpTo_succ s row level c (by omega)]
    by_cases h8 : c = 8
    · subst h8
      exact midRow_step_last row _ _ _ _ _ _ hS hC hA Iff.rfl ihc
    · exact midRow_step_regular row _ c (by omega) _ _ _ _ _ hS hC hA ihc

/-- A row scan keeps the row-end relation, whatever the column read returns. -/
theorem scanRow_rowEnd (s : Scanner) (row : Nat) (read : Option (Nat → Int))
    (h : RowEndInvariant s) : RowEndInvariant (s.scanRow row read) := by
  cases read with
  | none => exact h
  | some level =>
    rw [scanRow_eq_upTo]
    obtain ⟨m1, m2, m3, m4, m5, m6⟩ := scanRowUpTo_midRow s row level h 9 (le_refl _)
    have h9 : ¬ (9 ≤ 8) := by omega
    exact ⟨⟨fun a => (m2 a).resolve_right (fun b => h9 b.2.2), m1⟩,
      ⟨fun a => (m4 a).resolve_right (fun b => h9 b.2.2), m3⟩,
      fun a => (m5 a).resolve_right (fun b => h9 b.2.2), m6⟩

theorem scanRows_rowEnd (reads : Nat → Option (Nat → Int)) (rows : List Nat) (s : Scanner)
    (h : RowEndInvariant s) : RowEndInvariant (scanRows reads rows s) := by
  induction rows generalizing s with
  | nil => exact h
  | cons r rest ih => exact ih _ (scanRow_rowEnd s r (reads r) h)

theorem run_rowEnd (sweeps : List (Nat → Option (Nat → Int))) (s : Scanner)
    (h : RowEndInvariant s) : RowEndInvariant (s.run sweeps) := by
  induction sweeps generalizing s with
  | nil => exact h
  | cons reads rest ih => exact ih _ (scanRows_rowEnd reads _ s h)

theorem newScanner_rowEnd (dev : Device) : RowEndInvariant (newScanner dev) := by
  unfold RowEndInvariant Scanner.pressed newScanner
  simp

/-- The row-end relation holds after every row scan of every sweep, from a new scanner. -/
theorem reachable_rowEnd (dev : Device) (sweeps : List (Nat → Option (Nat → Int)))
    (reads : Nat → Option (Nat → Int)) (k : Nat) :
    RowEndInvariant (scanRows reads (List.range k) ((newScanner dev).run sweeps)) :=
  scanRows_rowEnd reads _ _ (run_rowEnd sweeps _ (newScanner_rowEnd dev))

/-- C17: from a newly constructed scanner, after any sweeps and at the end of every row
scan of the sweep under way (the first `k` rows done), whatever the column reads return
(failed reads and levels outside {0,1} included): the ctrl flag is true if and only if
(1,8) is recorded pressed, and the alt flag is true if and only if (2,8) is recorded
pressed. -/
theorem ctrl_alt_track_recorded_state (dev : Device)
    (sweeps : List (Nat → Option (Nat → Int))) (reads : Nat → Option (Nat → Int)) (k : Nat) :
    ((scanRows reads (List.range k) ((newScanner dev).run sweeps)).ctrl = true ↔
        (scanRows reads (List.range k) ((newScanner dev).run sweeps)).pressed 1 8) ∧
      ((scanRows reads (List.range k) ((newScanner dev).run sweeps)).alt = true ↔
        (scanRows reads (List.range k) ((newScanner dev).run sweeps)).pressed 2 8) :=
  ⟨(reachable_rowEnd dev sweeps reads k).1, (reachable_rowEnd dev sweeps reads k).2.1⟩

/-- C18: from a newly constructed scanner, after any sweeps and at the end of every row
scan of the sweep under way, whatever the column reads return: if the shift flag is true
then one of (0,8), (4,8), (5,8), (6,8) is recorded pressed, and if the code flag is true
then the CODE position (3,8) is recorded pressed. -/
theorem shift_code_imply_recorded_state (dev : Device)
    (sweeps : List (Nat → Option (Nat → Int))) (reads : Nat → Option (Nat → Int)) (k : Nat) :
    ((scanRows reads (List.range k) ((newScanner dev).run sweeps)).shift = true →
        (scanRows reads (List.range k) ((newScanner dev).run sweeps)).pressed 0 8 ∨
        (scanRows reads (List.range k) ((newScanner dev).run sweeps)).pressed 4 8 ∨
        (scanRows reads (List.range k) ((newScanner dev).run sweeps)).pressed 5 8 ∨
        (scanRows reads (List.range k) ((newScanner dev).run sweeps)).pressed 6 8) ∧
      ((scanRows reads (List.range k) ((newScanner dev).run sweeps)).code = true →
        (scanRows reads (List.range k) ((newScanner dev).run sweeps)).pressed 3 8) :=
  ⟨(reachable_rowEnd dev sweeps reads k).2.2.1, (reachable_rowEnd dev sweeps reads k).2.2.2⟩

/-! ## The calls of `EmitCombo` -/

theorem pressModifiers_callSeq (mods : List Int) (kb : Keyboard) :
    pressModifiers mods kb = Keyboard.callSeq (mods.map KbEvent.keyDown) kb := by
  induction mods generalizing kb with
  | nil => rfl
  | cons m rest ih =>
    simp only [pressModifiers, List.map_cons, Keyboard.callSeq, Keyboard.KeyDown]
    split_ifs
    · rfl
    · exact ih _

theorem releaseModifiers_callSeq (mods : List Int) (kb : Keyboard) :
    releaseModifiers mods kb = Keyboard.callSeq (mods.map KbEvent.keyUp) kb := by
  induction mods generalizing kb with
  | nil => rfl
  | cons m rest ih =>
    simp only [releaseModifiers, List.map_cons, Keyboard.callSeq, Keyboard.KeyUp]
    split_ifs
    · rfl
    · exact ih _

theorem callSeq_append (l1 l2 : List KbEvent) (kb : Keyboard) :
    Keyboard.callSeq (l1 ++ l2) kb =
      if (Keyboard.callSeq l1 kb).1 then (true, (Keyboard.callSeq l1 kb).2)
      else Keyboard.callSeq l2 (Keyboard.callSeq l1 kb).2 := by
  induction l1 generalizing kb with
  | nil => simp [Keyboard.callSeq]
  | cons e rest ih =>
    simp only [List.cons_append, Keyboard.callSeq]
    by_cases h : (kb.call e).1 = true
    · simp [h]
    · simp only [h, Bool.false_eq_true, if_false]
      exact ih _

/-- The result of `EmitCombo` is that of the calls of `comboCalls`, issued in order up to
the first failure. -/
theorem EmitCombo_callSeq (d : Device) (mods : List Int) (key : Int) :
    (d.EmitCombo mods key).1 = (Keyboard.callSeq (comboCalls mods key) d.kb).1 ∧
      (d.EmitCombo mods key).2.kb = (Keyboard.callSeq (comboCalls mods key) d.kb).2 := by
  unfold Device.EmitCombo comboCalls
  rw [callSeq_append, callSeq_append, pressModifiers_callSeq]
  dsimp only
  by_cases h1 : (Keyboard.callSeq (mods.map KbEvent.keyDown) d.kb).1 = true
  · simp [h1]
  · simp only [h1, Bool.false_eq_true, if_false, Keyboard.KeyPress]
    have hk : Keyboard.callSeq [KbEvent.keyPress key]
        (Keyboard.callSeq (mods.map KbEvent.keyDown) d.kb).2 =
        (((Keyboard.callSeq (mods.map KbEvent.keyDown) d.kb).2.call
          (KbEvent.keyPress key)).1,
         ((Keyboard.callSeq (mods.map KbEvent.keyDown) d.kb).2.call
          (KbEvent.keyPress key)).2) := by
      simp only [Keyboard.callSeq]
      split_ifs with h <;> simp [h]
    rw [hk]
    by_cases h2 : ((Keyboard.callSeq (mods.map KbEvent.keyDown) d.kb).2.call
        (KbEvent.keyPress key)).1 = true
    · simp [h2]
    · simp only [h2, Bool.false_eq_true, if_false, releaseModifiers_callSeq]
      split_ifs with h3 <;> simp only [List.map_reverse] at h3 <;> simp [h3]

theorem Keyboard.call_outcome (kb : Keyboard) (e : KbEvent) :
    (kb.call e).1 = kb.faults.getD 0 false ∧
      ∀ j, (kb.call e).2.faults.getD j false = kb.faults.getD (j + 1) false := by
  unfold Keyboard.call
  cases kb.faults with
  | nil => exact ⟨rfl, fun j => by simp⟩
  | cons f rest => exact ⟨rfl, fun j => by simp⟩

theorem callSeq_ok (es : List KbEvent) (kb : Keyboard)
    (h : ∀ j, j < es.length → kb.faults.getD j false = false) :
    (Keyboard.callSeq es kb).1 = false ∧
      (Keyboard.callSeq es kb).2.events = kb.events ++ es := by
  induction es generalizing kb with
  | nil => simp [Keyboard.callSeq]
  | cons e rest ih =>
    obtain ⟨o1, o2⟩ := Keyboard.call_outcome kb e
    have h0 : (kb.call e).1 = false := by
      rw [o1]; exact h 0 (by simp)
    simp only [Keyboard.callSeq, h0, Bool.false_eq_true, if_false]
    obtain ⟨r1, r2⟩ := ih (kb.call e).2 (fun j hj => by
      rw [o2]; exact h (j + 1) (by simp only [List.length_cons]; omega))
    refine ⟨r1, ?_⟩
    rw [r2, Keyboard.call_events]
    simp

theorem callSeq_fail (es : List KbEvent) (kb : Keyboard) (i : Nat) (hi : i < es.length)
    (hf : kb.faults.getD i false = true)
    (hb : ∀ j, j < i → kb.faults.getD j false = false) :
    (Keyboard.callSeq es kb).1 = true ∧
      (Keyboard.callSeq es kb).2.events = kb.events ++ es.take (i + 1) := by
  induction es generalizing kb i with
  | nil => simp at hi
  | cons e rest ih =>
    obtain ⟨o1, o2⟩ := Keyboard.call_outcome kb e
    cases i with
    | zero =>
      have h0 : (kb.call e).1 = true := by rw [o1]; exact hf
      simp only [Keyboard.callSeq, h0, if_true]
      refine ⟨trivial, ?_⟩
      rw [Keyboard.call_events]
      simp
    | succ i =>
      have h0 : (kb.call e).1 = false := by rw [o1]; exact hb 0 (by omega)
      simp only [Keyboard.callSeq, h0, Bool.false_eq_true, if_false]
      obtain ⟨r1, r2⟩ := ih (kb.call e).2 i
        (by simp only [List.length_cons] at hi; omega)
        (by rw [o2]; exact hf)
        (fun j hj => by rw [o2]; exact hb (j + 1) (by omega))
      refine ⟨r1, ?_⟩
      rw [r2, Keyboard.call_events]
      simp

/-- C19: the calls of `EmitCombo` for the modifiers m1..mn and the key k are, in order,
down m1, ..., down mn, press k, up mn, ..., up m1. If the calls all succeed, exactly these
are issued and the result is nil. If the call number `i` is the first to fail, the result
is an error and exactly the calls up to and including that one are issued, no further
one; when that is a modifier press or the key press, no modifier is released. -/
theorem EmitCombo_sequence (d : Device) (mods : List Int) (key : Int) :
    comboCalls mods key =
        mods.map KbEvent.keyDown ++ [KbEvent.keyPress key] ++
          mods.reverse.map KbEvent.keyUp ∧
    ((∀ j, j < (comboCalls mods key).length → d.kb.faults.getD j false = false) →
      (d.EmitCombo mods key).1 = false ∧
        (d.EmitCombo mods key).2.kb.events = d.kb.events ++ comboCalls mods key) ∧
    (∀ i, i < (comboCalls mods key).length → d.kb.faults.getD i false = true →
      (∀ j, j < i → d.kb.faults.getD j false = false) →
      (d.EmitCombo mods key).1 = true ∧
        (d.EmitCombo mods key).2.kb.events =
          d.kb.events ++ (comboCalls mods key).take (i + 1) ∧
        (i ≤ mods.length → ∀ m, KbEvent.keyUp m ∉ (comboCalls mods key).take (i + 1))) := by
  obtain ⟨e1, e2⟩ := EmitCombo_callSeq d mods key
  refine ⟨rfl, fun h => ?_, fun i hi hf hb => ?_⟩
  · rw [e1, e2]
    exact callSeq_ok _ _ h
  · rw [e1, e2]
    obtain ⟨r1, r2⟩ := callSeq_fail _ _ i hi hf hb
    refine ⟨r1, r2, fun hle m hm => ?_⟩
    have htake : (comboCalls mods key).take (i + 1) =
        (mods.map KbEvent.keyDown ++ [KbEvent.keyPress key]).take (i + 1) := by
      unfold comboCalls
      rw [List.take_append_of_le_length (by simp; omega)]
    rw [htake] at hm
    have hm' := List.mem_of_mem_take hm
    simp at hm'

/-- C19, witness: Ctrl+Shift+C on a keyboard whose second call fails: LeftCtrl and
LeftShift are asked down, an error is returned, nothing else is issued and LeftCtrl is not
released. -/
theorem EmitCombo_sequence_witness :
    (({ kb := { events := [], faults := [false, true] } } : Device).EmitCombo
        [uinput.KeyLeftctrl, uinput.KeyLeftshift] uinput.KeyC).1 = true ∧
      (({ kb := { events := [], faults := [false, true] } } : Device).EmitCombo
        [uinput.KeyLeftctrl, uinput.KeyLeftshift] uinput.KeyC).2.kb.events =
          [KbEvent.keyDown uinput.KeyLeftctrl, KbEvent.keyDown uinput.KeyLeftshift] ∧
      (({ kb := { events := [], faults := [] } } : Device).EmitCombo
        [uinput.KeyLeftctrl, uinput.KeyLeftshift] uinput.KeyC).2.kb.events =
          [KbEvent.keyDown uinput.KeyLeftctrl, KbEvent.keyDown uinput.KeyLeftshift,
            KbEvent.keyPress uinput.KeyC, KbEvent.keyUp uinput.KeyLeftshift,
            KbEvent.keyUp uinput.KeyLeftctrl] :=
  have h := (EmitCombo_sequence { kb := { events := [], faults := [false, true] } }
    [uinput.KeyLeftctrl, uinput.KeyLeftshift] uinput.KeyC).2.2 1 (by decide) rfl
    (by decide)
  have g := (EmitCombo_sequence { kb := { events := [], faults := [] } }
    [uinput.KeyLeftctrl, uinput.KeyLeftshift] uinput.KeyC).2.1 (by decide)
  ⟨h.1, h.2.1, g.2⟩

/-! ## Construction -/

/-- C20: `New` returns a scanner only when all four acquisitions succeed, and then one with
an empty key state table and all four flags false. When an acquisition fails it returns an
error and no scanner, and the resources acquired before are closed in reverse order of
acquisition: nothing for a device failure, the device for a chip failure, chip then device
for a column failure, columns, chip, then device for a row failure. -/
theorem New_outcomes (acquires : Resource → Bool) (dev : Device) :
    ((∃ s, (New acquires dev).1 = Except.ok s) ↔
      (acquires Resource.device = true ∧ acquires Resource.chip = true ∧
        acquires Resource.columns = true ∧ acquires Resource.rows = true)) ∧
    (∀ s, (New acquires dev).1 = Except.ok s →
      s.keyStates = (fun _ => none) ∧ s.shift = false ∧ s.ctrl = false ∧ s.alt = false ∧
        s.code = false ∧
        closedResources (New acquires dev).2 = []) ∧
    (∀ msg, (New acquires dev).1 = Except.error msg →
      closedResources (New acquires dev).2 = (acquiredResources (New acquires dev).2).reverse) ∧
    (acquires Resource.device = false →
      (∃ msg, (New acquires dev).1 = Except.error msg) ∧
        acquiredResources (New acquires dev).2 = [] ∧
        closedResources (New acquires dev).2 = []) ∧
    (acquires Resource.device = true → acquires Resource.chip = false →
      (∃ msg, (New acquires dev).1 = Except.error msg) ∧
        acquiredResources (New acquires dev).2 = [Resource.device] ∧
        closedResources (New acquires dev).2 = [Resource.device]) ∧
    (acquires Resource.device = true → acquires Resource.chip = true →
      acquires Resource.columns = false →
      (∃ msg, (New acquires dev).1 = Except.error msg) ∧
        acquiredResources (New acquires dev).2 = [Resource.device, Resource.chip] ∧
        closedResources (New acquires dev).2 = [Resource.chip, Resource.device]) ∧
    (acquires Resource.device = true → acquires Resource.chip = true →
      acquires Resource.columns = true → acquires Resource.rows = false →
      (∃ msg, (New acquires dev).1 = Except.error msg) ∧
        acquiredResources (New acquires dev).2 =
          [Resource.device, Resource.chip, Resource.columns] ∧
        closedResources (New acquires dev).2 =
          [Resource.columns, Resource.chip, Resource.device]) := by
  unfold New
  cases h1 : acquires Resource.device <;> cases h2 : acquires Resource.chip <;>
    cases h3 : acquires Resource.columns <;> cases h4 : acquires Resource.rows <;>
    simp [acquiredResources, closedResources, newScanner]

/-- C20, witness: the row lines cannot be acquired; `New` returns an error and closes the
columns, the chip and the device, in this order. -/
theorem New_outcomes_witness :
    (∃ msg, (New (fun r => decide (r ≠ Resource.rows))
        { kb := { events := [], faults := [] } }).1 = Except.error msg) ∧
      closedResources (New (fun r => decide (r ≠ Resource.rows))
        { kb := { events := [], faults := [] } }).2 =
          [Resource.columns, Resource.chip, Resource.device] :=
  have h := (New_outcomes (fun r => decide (r ≠ Resource.rows))
    { kb := { events := [], faults := [] } }).2.2.2.2.2.2 (by decide) (by decide) (by decide)
    (by decide)
  ⟨h.1, h.2.2⟩

/-- C17, witness: a new scanner, a sweep under way whose read of row 0 fails and whose
row 1 reads columns 1 and 8 high: at the end of the scan of row 1 ctrl is true, set by the
pre-scan before (1,8) itself was handled, and (1,8) is recorded pressed. -/
theorem ctrl_alt_track_recorded_state_witness :
    (scanRows (fun r => if r = 1 then some (fun c => if c = 1 ∨ c = 8 then 1 else 0) else none)
        (List.range 2)
        ((newScanner { kb := { events := [], faults := [] } }).run [])).ctrl = true ∧
      (scanRows (fun r => if r = 1 then some (fun c => if c = 1 ∨ c = 8 then 1 else 0) else none)
        (List.range 2)
        ((newScanner { kb := { events := [], faults := [] } }).run [])).pressed 1 8 :=
  ⟨by decide,
    (ctrl_alt_track_recorded_state { kb := { events := [], faults := [] } } []
      (fun r => if r = 1 then some (fun c => if c = 1 ∨ c = 8 then 1 else 0) else none)
      2).1.mp (by decide)⟩

/-- C18, witness: a new scanner whose row 0 reads columns 1 and 8 high, then the CODE row
3 reads column 8 high: shift and code are true, and (0,8) and (3,8) are recorded
pressed. -/
theorem shift_code_imply_recorded_state_witness :
    ((scanRows (fun r => if r = 0 then some (fun c => if c = 1 ∨ c = 8 then 1 else 0) else none)
        (List.range 1)
        ((newScanner { kb := { events := [], faults := [] } }).run [])).pressed 0 8 ∨
      (scanRows (fun r => if r = 0 then some (fun c => if c = 1 ∨ c = 8 then 1 else 0) else none)
        (List.range 1)
        ((newScanner { kb := { events := [], faults := [] } }).run [])).pressed 4 8 ∨
      (scanRows (fun r => if r = 0 then some (fun c => if c = 1 ∨ c = 8 then 1 else 0) else none)
        (List.range 1)
        ((newScanner { kb := { events := [], faults := [] } }).run [])).pressed 5 8 ∨
      (scanRows (fun r => if r = 0 then some (fun c => if c = 1 ∨ c = 8 then 1 else 0) else none)
        (List.range 1)
        ((newScanner { kb := { events := [], faults := [] } }).run [])).pressed 6 8) ∧
    (scanRows (fun r => if r = 3 then some (fun c => if c = 8 then 1 else 0) else none)
        (List.range 4)
        ((newScanner { kb := { events := [], faults := [] } }).run [])).pressed 3 8 :=
  ⟨(shift_code_imply_recorded_state { kb := { events := [], faults := [] } } []
      (fun r => if r = 0 then some (fun c => if c = 1 ∨ c = 8 then 1 else 0) else none)
      1).1 (by decide),
    (shift_code_imply_recorded_state { kb := { events := [], faults := [] } } []
      (fun r => if r = 3 then some (fun c => if c = 8 then 1 else 0) else none)
      4).2 (by decide)⟩

end M100
